import Mathlib

/-!
# Shuttle: HTTP inbound handshake, auth gate and HTTP handler

A shallow embedding of `inbound/http.go` (package `inbound`) and `http.go`
(package `shuttle`).  Go strings are Lean strings, Go maps are association
lists read with `List.lookup` (the first entry of a key is the map entry),
fallible functions return `Option` or `Except`, and the effects of a
connection handler are an explicit list of events in program order.
-/

set_option autoImplicit false

namespace Shuttle

/-! ## The Go standard library functions the code calls -/

/-- Byte view of a Go string, as produced by the conversion to a byte slice. -/
def bytesOf (s : String) : List Nat := s.toUTF8.data.toList.map UInt8.toNat

namespace strings

/-- Go `strings.HasPrefix`: the string `s` begins with `p`. -/
def HasPrefix (s p : String) : Bool := p.toList.isPrefixOf s.toList

end strings

namespace base64

/-- The alphabet of the standard encoding (RFC 4648). -/
def encodeStd : List Char :=
  "ABCDEFGHIJKLMNOPQRSTUVWXYZabcdefghijklmnopqrstuvwxyz0123456789+/".toList

/-- Alphabet character of the low six bits of `v` (the Go index `v & 0x3F`). -/
def enc (v : Nat) : Char := encodeStd.getD (v % 64) 'A'

/-- Go `Encoding.Encode` for the padded standard encoding: three bytes give
four characters, a remainder of one or two bytes is padded with `=`. -/
def encode : List Nat → List Char
  | a :: b :: c :: rest =>
    let val := a * 65536 + b * 256 + c
    enc (val / 262144) :: enc (val / 4096) :: enc (val / 64) :: enc val :: encode rest
  | [a, b] =>
    let val := a * 65536 + b * 256
    [enc (val / 262144), enc (val / 4096), enc (val / 64), '=']
  | [a] =>
    let val := a * 65536
    [enc (val / 262144), enc (val / 4096), '=', '=']
  | [] => []

/-- Go `base64.StdEncoding.EncodeToString`. -/
def EncodeToString (src : List Nat) : String := String.mk (encode src)

end base64

namespace textproto

/-- Go `validHeaderFieldByte`: the byte is an RFC 7230 token character. -/
def validHeaderFieldByte (c : Char) : Bool :=
  c.isAlphanum || decide (c.toNat ∈ [33, 35, 36, 37, 38, 39, 42, 43, 45, 46, 94, 95, 96, 124, 126])

/-- The case-fixing loop of Go `canonicalMIMEHeaderKey`: upper case at the
start and after each dash, lower case elsewhere. -/
def canonLoop : Bool → List Char → List Char
  | _, [] => []
  | upper, c :: cs =>
    let c1 := if upper && c.isLower then c.toUpper
              else if !upper && c.isUpper then c.toLower else c
    c1 :: canonLoop (c1 == '-') cs

/-- Go `canonicalMIMEHeaderKey`: a key holding a byte that is no token
character is returned unchanged, any other key has its case fixed. -/
def canonicalMIMEHeaderKey (a : String) : String :=
  if a.toList.all validHeaderFieldByte then String.mk (canonLoop true a.toList) else a

/-- The quick check of Go `CanonicalMIMEHeaderKey`: scan until an invalid
byte (return `s`) or a letter of the wrong case (canonicalise `s`). -/
def quickCheck (s : String) : Bool → List Char → String
  | _, [] => s
  | upper, c :: cs =>
    if !validHeaderFieldByte c then s
    else if upper && c.isLower then canonicalMIMEHeaderKey s
    else if !upper && c.isUpper then canonicalMIMEHeaderKey s
    else quickCheck s (c == '-') cs

/-- Go `textproto.CanonicalMIMEHeaderKey`. -/
def CanonicalMIMEHeaderKey (s : String) : String := quickCheck s true s.toList

end textproto

namespace strconv

/-- Value of a non-empty string of decimal digits; `none` for the empty
string and for a string holding any other character (Go: syntax error). -/
def digits : List Char → Option Nat
  | [] => none
  | c :: cs => (c :: cs).foldlM (fun acc d => if d.isDigit then some (acc * 10 + (d.toNat - 48)) else none) 0

/-- Go `strconv.ParseUint(s, 10, bitSize)`: decimal digits only, no sign,
`none` (range error) when the value does not fit `bitSize` bits. -/
def ParseUint (s : String) (bitSize : Nat) : Option Nat :=
  match digits s.toList with
  | none => none
  | some n => if n < 2 ^ bitSize then some n else none

/-- Go `strconv.Atoi` for a 64-bit `int`: an optional sign, then decimal
digits; `none` on a syntax error or when the value is out of range. -/
def Atoi (s : String) : Option Int :=
  match s.toList with
  | '-' :: cs =>
    match digits cs with
    | none => none
    | some n => if n ≤ 2 ^ 63 then some (-(n : Int)) else none
  | '+' :: cs =>
    match digits cs with
    | none => none
    | some n => if n < 2 ^ 63 then some (n : Int) else none
  | cs =>
    match digits cs with
    | none => none
    | some n => if n < 2 ^ 63 then some (n : Int) else none

end strconv

namespace url

/-- Go `validOptionalPort`: empty, or a colon followed by digits only. -/
def validOptionalPort : List Char → Bool
  | [] => true
  | c :: cs => c == ':' && cs.all (fun b => !(b < '0' || b > '9'))

/-- Index of the last colon of `host` (Go `strings.LastIndexByte(host, ':')`),
`none` when there is none. -/
def lastColon (host : List Char) : Option Nat :=
  match (host.reverse).indexOf? ':' with
  | none => none
  | some i => some (host.length - 1 - i)

/-- Go `splitHostPort`: split at the last colon when what follows is a valid
optional port, then strip the square brackets of an IPv6 literal. -/
def splitHostPort (hostPort : List Char) : List Char × List Char :=
  let hp : List Char × List Char :=
    match lastColon hostPort with
    | some colon =>
      if validOptionalPort (hostPort.drop colon) then
        (hostPort.take colon, hostPort.drop (colon + 1))
      else (hostPort, [])
    | none => (hostPort, [])
  let host := hp.1
  if host.head? = some '[' ∧ host.getLast? = some ']' then
    ((host.drop 1).take (host.length - 2), hp.2)
  else (host, hp.2)

/-- The fields of Go `url.URL` the code reads.  `string` holds the result of
the method `String()`, the serialisation computed by the library. -/
structure URL where
  Scheme : String
  Host : String
  string : String
  deriving DecidableEq, Repr

/-- Go `(*URL).Hostname`. -/
def URL.Hostname (u : URL) : String := String.mk (splitHostPort u.Host.toList).1

/-- Go `(*URL).Port`: the port without the colon, empty when there is none. -/
def URL.Port (u : URL) : String := String.mk (splitHostPort u.Host.toList).2

end url

namespace http

/-- Go `http.Header`, a map from header name to its list of values. -/
abbrev Header := List (String × List String)

/-- Go `Header.Get`: the first value under the canonical form of `key`, the
empty string when the key is absent or has no value. -/
def Header.Get (h : Header) (key : String) : String :=
  match List.lookup (textproto.CanonicalMIMEHeaderKey key) h with
  | some (v :: _) => v
  | _ => ""

/-- Go `Header.Del`: delete the entry under the canonical form of `key`. -/
def Header.Del (h : Header) (key : String) : Header :=
  h.filter (fun e => e.1 != textproto.CanonicalMIMEHeaderKey key)

/-- The fields of Go `http.Request` the code reads. -/
structure Request where
  Method : String
  URL : url.URL
  Proto : String
  Header : Header
  Host : String
  deriving DecidableEq, Repr

def MethodConnect : String := "CONNECT"

def StatusProxyAuthRequired : Nat := 407

end http

/-- Go `map[string]string`. -/
abbrev Params := List (String × String)

/-- Go map index `params[key]`: the zero value (empty string) when absent. -/
def Params.get (params : Params) (key : String) : String :=
  (List.lookup key params).getD ""

/-! ## Package inbound (`inbound/http.go`) -/

namespace inbound

def ParamsKeyAuthType : String := "auth_type"
def AuthTypeBasic : String := "basic"
def AuthTypeBearer : String := "bearer"
def ParamsKeyUser : String := "user"
def ParamsKeyPassword : String := "password"
def ParamsKeyToken : String := "token"

/-- The auth gate, Go type `func(*http.Request) bool`. -/
abbrev AuthFunc := http.Request → Bool

/-- Go `newBasicAuth`. -/
def newBasicAuth (params : Params) : Except String AuthFunc :=
  let user := params.get ParamsKeyUser
  if user.length = 0 then .error "[user] is empty"
  else
    let password := params.get ParamsKeyPassword
    if password.length = 0 then .error "[password] is empty"
    else
      let authorization :=
        "Basic " ++ base64.EncodeToString (bytesOf (user ++ ":" ++ password))
      .ok (fun req => req.Header.Get "Proxy-Authorization" == authorization)

/-- Go `newBearerAuth`. -/
def newBearerAuth (params : Params) : Except String AuthFunc :=
  let token := params.get ParamsKeyToken
  if token.length = 0 then .error "[token] is empty"
  else
    let authorization := "Bearer " ++ token
    .ok (fun req => req.Header.Get "Proxy-Authorization" == authorization)

/-- The closure `newHTTPInbound` returns: it runs the listener `dial` on the
handler built by `newHttpHandleFunc` from `authFunc`. -/
structure Listen (D : Type) where
  dial : D
  authFunc : AuthFunc

/-- Go `newHTTPInbound`.  `listenerGet` is `listener.Get` of package
`listener`, which yields the accept loop or an error. -/
def newHTTPInbound {D : Type} (listenerGet : String → String → Except String D)
    (addr : String) (params : Params) : Except String (Listen D) :=
  let selected : Except String AuthFunc :=
    match List.lookup ParamsKeyAuthType params with
    | some authType =>
      if authType = AuthTypeBasic then newBasicAuth params
      else if authType = AuthTypeBearer then newBearerAuth params
      else .error "[http.Inbound] is not support"
    | none => .ok (fun _ => true)
  match selected with
  | .error err => .error err
  | .ok authFunc =>
    match listenerGet "tcp" addr with
    | .error err => .error err
    | .ok dial => .ok { dial := dial, authFunc := authFunc }

/-- Go struct `request`, the request information attached to a connection. -/
structure request where
  network : String
  domain : String
  uri : String
  ip : List Nat
  port : Int
  countryCode : String
  deriving DecidableEq, Repr

/-- Go `(*request).SetPort`. -/
def request.SetPort (r : request) (port : Int) : request := { r with port := port }

/-- The state of a `connpkg.ICtxConn` that this file touches: its id and the
two entries of its value store, under `constant.KeyProtocol` and
`constant.KeyRequestInfo`. -/
structure CtxConn where
  connID : Nat
  protocol : Option String
  requestInfo : Option request
  deriving DecidableEq, Repr

/-- Go `conn.WithValue(constant.KeyProtocol, p)`. -/
def CtxConn.withProtocol (c : CtxConn) (p : String) : CtxConn := { c with protocol := some p }

/-- Go `c.WithValue(constant.KeyRequestInfo, r)`. -/
def CtxConn.withRequestInfo (c : CtxConn) (r : request) : CtxConn :=
  { c with requestInfo := some r }

/-- Go struct `httpConn`: the parsed request, replayed on `WriteTo`, and the
connection created by `connpkg.NewConn` around the inbound one. -/
structure httpConn where
  req : http.Request
  ICtxConn : CtxConn
  deriving DecidableEq, Repr

/-- The connection handed to the downstream `typ.HandleFunc`. -/
inductive Conn where
  | ctx (c : CtxConn)
  | http (h : httpConn)
  deriving DecidableEq, Repr

/-- What is written to the inbound connection. -/
inductive Output where
  | response (statusCode : Nat)
  | bytes (data : String)
  deriving DecidableEq, Repr

/-- The effects of the connection handler, in program order. -/
inductive Event where
  | write (out : Output) (ok : Bool)
  | handle (c : Conn)
  | goHandle (c : Conn)
  | close
  deriving DecidableEq, Repr

/-- The errors of the two handshakes. -/
inductive HandshakeError where
  | port (port : String)
  | write
  deriving DecidableEq, Repr

/-- One iteration of the keys of `filterProxyHeader`: a key that an earlier
deletion removed is no longer produced by the range loop. -/
def filterLoop : List String → http.Header → http.Header
  | [], h => h
  | k :: ks, h =>
    if (List.lookup k h).isSome && strings.HasPrefix k "Proxy" then filterLoop ks (h.Del k)
    else filterLoop ks h

/-- Go `filterProxyHeader`: range over the keys of the header map (here in
the order of the list) and delete each key that begins with `Proxy`. -/
def filterProxyHeader (req : http.Request) : http.Request :=
  { req with Header := filterLoop (req.Header.map Prod.fst) req.Header }

/-- Go `httpHandshake`. -/
def httpHandshake (req : http.Request) (c : CtxConn) : Except HandshakeError httpConn :=
  let ctxReq : request :=
    { network := "tcp", uri := req.URL.string, domain := req.URL.Hostname,
      ip := [], port := 0, countryCode := "" }
  let port := req.URL.Port
  let ported : Except HandshakeError request :=
    if port ≠ "" then
      match strconv.Atoi port with
      | none => .error (.port port)
      | some n => .ok { ctxReq with port := n }
    else .ok (ctxReq.SetPort 80)
  match ported with
  | .error err => .error err
  | .ok ctxReq => .ok { req := filterProxyHeader req, ICtxConn := c.withRequestInfo ctxReq }

/-- Go `httpsHandshake`.  `writeOk` tells whether `c.Write` succeeds; the
write is returned as an event next to the result. -/
def httpsHandshake (req : http.Request) (c : CtxConn) (writeOk : Bool) :
    List Event × Except HandshakeError CtxConn :=
  let wr := Event.write (.bytes (req.Proto ++ " 200 Connection established\r\n\r\n")) writeOk
  if !writeOk then ([wr], .error .write)
  else
    let ctxReq : request :=
      { network := "tcp", uri := req.URL.string, domain := req.URL.Hostname,
        ip := [], port := 0, countryCode := "" }
    let port := req.URL.Port
    if port ≠ "" then
      match strconv.Atoi port with
      | none => ([wr], .error (.port port))
      | some n => ([wr], .ok (c.withRequestInfo { ctxReq with port := n }))
    else ([wr], .ok (c.withRequestInfo (ctxReq.SetPort 443)))

/-- The result of one `http.ReadRequest` on the connection. -/
inductive ReadResult where
  | eof
  | failed
  | ok (req : http.Request)
  deriving DecidableEq, Repr

/-- What the connection does in one iteration of the read loop: the result
of the read, and whether the write of that iteration (if any) succeeds. -/
structure Step where
  read : ReadResult
  writeOk : Bool
  deriving DecidableEq, Repr

/-- The read loop of the handler returned by `newHttpHandleFunc`.  A stream
with no iteration left has ended: the read returns `io.EOF`.  Every path
ends with the deferred `conn.Close()`. -/
def serve (authFunc : AuthFunc) : CtxConn → List Step → List Event
  | _, [] => [.close]
  | conn, s :: rest =>
    match s.read with
    | .eof => [.close]
    | .failed => [.close]
    | .ok req =>
      if !authFunc req then
        [.write (.response http.StatusProxyAuthRequired) s.writeOk, .close]
      else if req.Method = http.MethodConnect then
        let conn := conn.withProtocol "https"
        match httpsHandshake req conn s.writeOk with
        | (evs, .error _) => evs ++ [.close]
        | (evs, .ok c) => evs ++ [.handle (.ctx c), .close]
      else
        let conn := conn.withProtocol "http"
        match httpHandshake req conn with
        | .error _ => [.close]
        | .ok c => .goHandle (.http c) :: serve authFunc conn rest

/-- Go `newHttpHandleFunc`: a missing gate is replaced by the gate that
accepts everything; the result is the connection handler. -/
def newHttpHandleFunc (authFunc : Option AuthFunc) : CtxConn → List Step → List Event :=
  serve (match authFunc with
    | none => fun _ => true
    | some f => f)

/-- The connections the downstream handler was invoked on, in order. -/
def handled : List Event → List Conn
  | [] => []
  | .handle c :: evs => c :: handled evs
  | .goHandle c :: evs => c :: handled evs
  | _ :: evs => handled evs

end inbound

/-! ## Package shuttle (`http.go`) -/

namespace shuttle

def HTTP : String := "http"
def HTTPS : String := "https"

/-- Declarations of package `shuttle` made in other files of the package,
taken as parameters. -/
structure Decls where
  socksVer5 : Nat
  CmdTCP : Nat
  AddrTypeDomain : Nat
  ProtocolHttp : String
  ProtocolHttps : String
  RecordStatusActive : String
  ParseIP : String → Option (List Nat)

/-- Go struct `Request` of package `shuttle`.  `Port` is a `uint16`. -/
structure Request where
  Ver : Nat
  Cmd : Nat
  Addr : String
  Atyp : Nat
  ConnID : Nat
  IP : Option (List Nat)
  Port : Nat
  Target : String
  Protocol : String
  deriving DecidableEq, Repr

/-- Go `strToUint16`. -/
def strToUint16 (v : String) : Option Nat :=
  match strconv.ParseUint v (2 * 8) with
  | some r => some (r % 2 ^ 16)
  | none => none

/-- Go `prepareRequest`.  `connID` is `conn.GetID()` and `read` the result of
`http.ReadRequest` on the connection. -/
def prepareRequest (d : Decls) (connID : Nat) (read : Except String http.Request) :
    Except String (Request × http.Request) :=
  match read with
  | .error err => .error err
  | .ok hreq =>
    let req : Request :=
      { Ver := d.socksVer5, Cmd := d.CmdTCP, Addr := hreq.URL.Hostname,
        Atyp := d.AddrTypeDomain, ConnID := connID, IP := none, Port := 0,
        Target := "", Protocol := "" }
    let req := { req with IP := d.ParseIP req.Addr }
    let port := hreq.URL.Port
    let ported : Except String Request :=
      if port.length > 0 then
        match strToUint16 port with
        | none => .error ("http port error:" ++ port)
        | some p => .ok { req with Port := p }
      else .ok req
    match ported with
    | .error err => .error err
    | .ok req =>
      let req := { req with Target := hreq.URL.string }
      let req :=
        if strings.HasPrefix req.Target "//" then { req with Target := req.Target.drop 2 }
        else req
      let req :=
        if hreq.URL.Scheme = HTTP then
          let req := { req with Protocol := d.ProtocolHttp }
          if req.Port = 0 then { req with Port := 80 } else req
        else if hreq.Method = http.MethodConnect then
          let req := { req with Protocol := d.ProtocolHttps }
          if req.Port = 0 then { req with Port := 443 } else req
        else req
      .ok (req, hreq)

/-- A wrapped connection (`IConn`), known by its id. -/
structure IConn where
  id : Nat
  deriving DecidableEq, Repr

/-- Go struct `Record`, with the rule type `R` and the server type `S`. -/
structure Record (R S : Type) where
  ID : Nat
  Protocol : String
  Created : Nat
  Proxy : S
  Status : String
  URL : String
  Rule : R

/-- The error of `s.Conn`: the distinguished `ErrorReject`, or another. -/
inductive ConnError where
  | reject
  | other (msg : String)
  deriving DecidableEq, Repr

/-- The effects of `HandleHTTP`, in program order. -/
inductive Effect (R S : Type) where
  | conn (s : S) (req : Request)
  | write (c : IConn) (data : String)
  | close (c : IConn)
  | mimt (c sc : IConn) (req : Request)
  | httpTransport (c sc : IConn) (record : Record R S) (dump : Bool) (hreq : Option http.Request)
  | recordChan (record : Record R S)
  | directTransport (c sc : IConn)

/-- The two package-level toggles. -/
structure Toggles where
  allowMitm : Bool
  allowDump : Bool
  deriving DecidableEq, Repr

/-- Go `SetAllowMitm`. -/
def SetAllowMitm (t : Toggles) (b : Bool) : Toggles := { t with allowMitm := b }

/-- Go `SetAllowDump`. -/
def SetAllowDump (t : Toggles) (b : Bool) : Toggles := { t with allowDump := b }

/-- Go `GetAllowMitm`. -/
def GetAllowMitm (t : Toggles) : Bool := t.allowMitm

/-- Go `GetAllowDump`. -/
def GetAllowDump (t : Toggles) : Bool := t.allowDump

/-- The results of the collaborators `HandleHTTP` calls: `NewDefaultConn`,
`http.ReadRequest`, `FilterByReq` (all three of its results), `s.Conn`, the
write of the CONNECT reply, `Mimt` and `time.Now`. -/
structure World (R S : Type) where
  wrap : Except String IConn
  read : Except String http.Request
  filterByReq : Request → R × S × Option String
  conn : S → Request → Except ConnError IConn
  replyOk : Bool
  mimt : IConn → IConn → Request → Except String (IConn × IConn)
  now : Nat

/-- Go `HandleHTTP`.  An error of `FilterByReq` is logged and the function
goes on to `s.Conn`.  The toggles are read where the source reads them, for
the MITM decoration and again for the choice of transport. -/
def HandleHTTP {R S : Type} (d : Decls) (t : Toggles) (w : World R S) : List (Effect R S) :=
  match w.wrap with
  | .error _ => []
  | .ok conn =>
    match prepareRequest d conn.id w.read with
    | .error _ => []
    | .ok (req, hreq) =>
      let (rule, s, _) := w.filterByReq req
      match w.conn s req with
      | .error _ => [.conn s req]
      | .ok sc =>
        let reply : List (Effect R S) :=
          if req.Protocol = d.ProtocolHttps then
            [.write conn "HTTP/1.1 200 Connection established\r\n\r\n"]
          else []
        if req.Protocol = d.ProtocolHttps ∧ w.replyOk = false then
          .conn s req :: reply ++ [.close conn, .close sc]
        else
          let decorated : Option (IConn × IConn) × List (Effect R S) :=
            if t.allowDump && decide (req.Protocol = d.ProtocolHttps) && t.allowMitm then
              match w.mimt conn sc req with
              | .error _ => (none, [.mimt conn sc req, .close conn, .close sc])
              | .ok (lct, sct) => (some (lct, sct), [.mimt conn sc req])
            else (some (conn, sc), [])
          match decorated with
          | (none, evs) => .conn s req :: reply ++ evs
          | (some (conn, sc), evs) =>
            let record : Record R S :=
              { ID := sc.id, Protocol := req.Protocol, Created := w.now, Proxy := s,
                Status := d.RecordStatusActive, URL := req.Target, Rule := rule }
            let transport : List (Effect R S) :=
              if t.allowDump && decide (req.Protocol = d.ProtocolHttps) && t.allowMitm then
                [.httpTransport conn sc record true none]
              else if req.Protocol = d.ProtocolHttp then
                [.httpTransport conn sc record t.allowDump (some hreq)]
              else [.recordChan record, .directTransport conn sc]
            .conn s req :: reply ++ evs ++ transport

end shuttle

/-! ## Notions the statements use -/

/-- The first value of the header stored under `key`, when there is one. -/
def firstValue (h : http.Header) (key : String) : Option String :=
  (List.lookup key h).bind List.head?

/-- The parameter `key` is absent from the map or set to the empty string. -/
def missing (params : Params) (key : String) : Prop :=
  List.lookup key params = none ∨ List.lookup key params = some ""

/-- The number a string of decimal digits denotes. -/
def decimalValue (s : String) : Nat :=
  s.toList.foldl (fun acc c => acc * 10 + (c.toNat - 48)) 0

/-- The request information `r` is the one the claim describes for `req`:
network `tcp`, domain the host name of the URL, uri the string form of the
URL, and the given port. -/
def describes (r : inbound.request) (req : http.Request) (port : Int) : Prop :=
  r.network = "tcp" ∧ r.domain = req.URL.Hostname ∧ r.uri = req.URL.string ∧ r.port = port

/-- The step reads a CONNECT request. -/
def isConnect (s : inbound.Step) : Bool :=
  match s.read with
  | .ok req => req.Method == http.MethodConnect
  | _ => false

/-- The step reads a request (the parse succeeds) that the gate accepts. -/
def authenticated (authFunc : inbound.AuthFunc) (s : inbound.Step) : Bool :=
  match s.read with
  | .ok req => authFunc req
  | _ => false

/-- The steps up to and including the first one that reads a CONNECT. -/
def uptoConnect : List inbound.Step → List inbound.Step
  | [] => []
  | s :: rest => if isConnect s then [s] else s :: uptoConnect rest

/-- The connection the handshake of the request of step `s` produces on the
inbound connection `conn`, when the handshake succeeds. -/
def downstream (conn : inbound.CtxConn) (s : inbound.Step) : Option inbound.Conn :=
  match s.read with
  | .ok req =>
    if req.Method = http.MethodConnect then
      match (inbound.httpsHandshake req (conn.withProtocol "https") s.writeOk).2 with
      | .ok c => some (.ctx c)
      | .error _ => none
    else
      match inbound.httpHandshake req (conn.withProtocol "http") with
      | .ok c => some (.http c)
      | .error _ => none
  | _ => none

/-- The state of the inbound connection after the handler went through the
steps `pre`, none of which ended the loop. -/
def connAfter (conn : inbound.CtxConn) (pre : List inbound.Step) : inbound.CtxConn :=
  if pre.isEmpty then conn else conn.withProtocol "http"

/-- The iteration of step `s` does not end the read loop: the request is
parsed, accepted by the gate, is no CONNECT and its handshake succeeds. -/
def continues (authFunc : inbound.AuthFunc) (conn : inbound.CtxConn) (s : inbound.Step) : Bool :=
  authenticated authFunc s && !isConnect s && (downstream conn s).isSome

/-- The effect starts a transport (`HttpTransport` or `DirectChannel`). -/
def isTransport {R S : Type} : shuttle.Effect R S → Bool
  | .httpTransport _ _ _ _ _ => true
  | .directTransport _ _ => true
  | _ => false

/-- The effect is a call of `Mimt`. -/
def isMimt {R S : Type} : shuttle.Effect R S → Bool
  | .mimt _ _ _ => true
  | _ => false

/-- The effect closes a connection. -/
def isClose {R S : Type} : shuttle.Effect R S → Bool
  | .close _ => true
  | _ => false

/-- The effect is a call of `s.Conn`, the attempt of the outbound connection. -/
def isConn {R S : Type} : shuttle.Effect R S → Bool
  | .conn _ _ => true
  | _ => false

/-! ## Sample inputs -/

/-- A plain request for `http://example.com:8080/`. -/
def sampleGet : http.Request :=
  { Method := "GET"
    URL := { Scheme := "http", Host := "example.com:8080", string := "http://example.com:8080/" }
    Proto := "HTTP/1.1"
    Header := [("Accept", ["a", "b"])]
    Host := "example.com:8080" }

/-- A plain request whose port does not fit an `int`. -/
def sampleHugePort : http.Request :=
  { Method := "GET"
    URL := { Scheme := "http", Host := "example.com:99999999999999999999",
             string := "http://example.com:99999999999999999999/" }
    Proto := "HTTP/1.1"
    Header := []
    Host := "example.com:99999999999999999999" }

/-- A CONNECT request for `example.com:443`. -/
def sampleConnect : http.Request :=
  { Method := "CONNECT"
    URL := { Scheme := "", Host := "example.com:443", string := "//example.com:443" }
    Proto := "HTTP/1.1"
    Header := []
    Host := "example.com:443" }

/-- A plain request that carries the credential of `root:123123`. -/
def sampleAuthedGet : http.Request :=
  { Method := "GET"
    URL := { Scheme := "http", Host := "example.com", string := "http://example.com/" }
    Proto := "HTTP/1.1"
    Header := [("Proxy-Authorization", ["Basic cm9vdDoxMjMxMjM="]), ("Accept", ["a"])]
    Host := "example.com" }

/-- A CONNECT request that carries the credential of `root:123123`. -/
def sampleAuthedConnect : http.Request :=
  { sampleConnect with Header := [("Proxy-Authorization", ["Basic cm9vdDoxMjMxMjM="])] }

/-- The gate of basic auth for `root:123123`. -/
def sampleGate : inbound.AuthFunc :=
  fun req => req.Header.Get "Proxy-Authorization" == "Basic cm9vdDoxMjMxMjM="

/-- A plain request whose URL names the port 0. -/
def sampleZeroPort : http.Request :=
  { Method := "GET"
    URL := { Scheme := "http", Host := "example.com:0", string := "http://example.com:0/" }
    Proto := "HTTP/1.1"
    Header := []
    Host := "example.com:0" }

/-- Values for the declarations of package `shuttle` made in other files. -/
def sampleDecls : shuttle.Decls :=
  { socksVer5 := 5, CmdTCP := 1, AddrTypeDomain := 3, ProtocolHttp := "http",
    ProtocolHttps := "https", RecordStatusActive := "Active", ParseIP := fun _ => none }

/-- A proxied GET whose URL names no port. -/
def sampleNoPort : http.Request :=
  { Method := "GET"
    URL := { Scheme := "http", Host := "example.com", string := "http://example.com/" }
    Proto := "HTTP/1.1"
    Header := []
    Host := "example.com" }

/-- A world in which `FilterByReq` finds no rule and returns an error next to
its zero results, and every other collaborator succeeds. -/
def sampleNoRoute : shuttle.World String String :=
  { wrap := .ok ⟨1⟩
    read := .ok sampleNoPort
    filterByReq := fun _ => ("", "", some "no rule matched")
    conn := fun _ _ => .ok ⟨2⟩
    replyOk := true
    mimt := fun c sc _ => .ok (⟨c.id + 10⟩, ⟨sc.id + 10⟩)
    now := 0 }

/-- A world in which a CONNECT is routed to the server `JP1` and every
collaborator succeeds. -/
def sampleTunnel : shuttle.World String String :=
  { wrap := .ok ⟨1⟩
    read := .ok sampleConnect
    filterByReq := fun _ => ("FINAL", "JP1", none)
    conn := fun _ _ => .ok ⟨2⟩
    replyOk := true
    mimt := fun c sc _ => .ok (⟨c.id + 10⟩, ⟨sc.id + 10⟩)
    now := 0 }

/-- A fresh inbound connection. -/
def sampleConn : inbound.CtxConn := { connID := 1, protocol := none, requestInfo := none }

/-! ## Auxiliary facts -/

theorem length_eq_zero_iff (s : String) : s.length = 0 ↔ s = "" := by
  constructor
  · intro h
    apply String.ext
    exact List.length_eq_zero.mp h
  · rintro rfl
    rfl

theorem get_eq_empty_iff (params : Params) (key : String) :
    params.get key = "" ↔ missing params key := by
  unfold Params.get missing
  cases h : List.lookup key params with
  | none => simp
  | some v => simp

theorem append_ne_empty (a b : String) (h : a ≠ "") : a ++ b ≠ "" := by
  intro hab
  apply h
  apply String.ext
  have := congrArg String.data hab
  simp only [String.data_append] at this
  exact (List.append_eq_nil.mp this).1

theorem canonical_proxy_authorization :
    textproto.CanonicalMIMEHeaderKey "Proxy-Authorization" = "Proxy-Authorization" := by
  decide

theorem get_eq_iff_firstValue (h : http.Header) (v : String) (hv : v ≠ "") :
    h.Get "Proxy-Authorization" = v ↔ firstValue h "Proxy-Authorization" = some v := by
  unfold http.Header.Get firstValue
  rw [canonical_proxy_authorization]
  cases hl : List.lookup "Proxy-Authorization" h with
  | none => simpa using fun e => hv e.symm
  | some vs =>
    cases vs with
    | nil => simpa using fun e => hv e.symm
    | cons x xs => simp

theorem get_absent (h : http.Header) (hl : List.lookup "Proxy-Authorization" h = none) :
    h.Get "Proxy-Authorization" = "" := by
  unfold http.Header.Get
  rw [canonical_proxy_authorization, hl]


/-! ## Header maps -/

theorem lookup_filter_key {β : Type} (p : String → Bool) (k : String) (h : List (String × β)) :
    List.lookup k (h.filter (fun e => p e.1)) = if p k then List.lookup k h else none := by
  induction h with
  | nil => simp
  | cons e es ih =>
    obtain ⟨a, b⟩ := e
    by_cases hpa : p a = true
    · rw [List.filter_cons_of_pos (by simpa using hpa)]
      by_cases hka : k = a
      · subst hka
        simp [List.lookup_cons, hpa]
      · have : (k == a) = false := by simpa using hka
        simp only [List.lookup_cons, this, ih]
    · rw [List.filter_cons_of_neg (by simpa using hpa)]
      by_cases hka : k = a
      · subst hka
        simp only [Bool.not_eq_true] at hpa
        simp [ih, hpa]
      · have : (k == a) = false := by simpa using hka
        simp only [List.lookup_cons, this, ih]

theorem lookup_isSome_of_mem {β : Type} (h : List (String × β)) (e : String × β) (he : e ∈ h) :
    (List.lookup e.1 h).isSome = true := by
  induction h with
  | nil => cases he
  | cons x xs ih =>
    obtain ⟨a, b⟩ := x
    by_cases hea : e.1 = a
    · simp [List.lookup_cons, hea]
    · have hne : (e.1 == a) = false := by simpa using hea
      have hmem : e ∈ xs := by
        rcases List.mem_cons.mp he with h1 | h1
        · exact absurd (by rw [h1]) hea
        · exact h1
      simp only [List.lookup_cons, hne]
      exact ih hmem

open inbound in
theorem filterLoop_eq_filter (ks : List String)
    (hks : ∀ k ∈ ks, textproto.CanonicalMIMEHeaderKey k = k) (h : http.Header) :
    filterLoop ks h = h.filter (fun e => !(ks.contains e.1 && strings.HasPrefix e.1 "Proxy")) := by
  induction ks generalizing h with
  | nil => simp [filterLoop]
  | cons k ks ih =>
    have hk : textproto.CanonicalMIMEHeaderKey k = k := hks k (List.mem_cons_self _ _)
    have ih1 := ih (fun x hx => hks x (List.mem_cons_of_mem _ hx))
    unfold filterLoop
    split
    · rename_i hc
      simp only [Bool.and_eq_true] at hc
      rw [ih1, http.Header.Del, hk, List.filter_filter]
      apply List.filter_congr
      intro e _
      by_cases hek : e.1 = k
      · simp [hek, hc.2]
      · have h1 : (e.1 == k) = false := by simpa using hek
        simp [List.contains_cons, h1, hek]
    · rename_i hc
      rw [ih1]
      apply List.filter_congr
      intro e he
      by_cases hek : e.1 = k
      · have hs := lookup_isSome_of_mem h e he
        rw [hek] at hs
        have hp : strings.HasPrefix k "Proxy" = false := by
          simpa [hs] using hc
        simp [hek, hp]
      · have h1 : (e.1 == k) = false := by simpa using hek
        simp [List.contains_cons, h1, hek]


/-! ## Ports and decimal numbers -/

theorem digit_range (b : Char) : (!(b < '0' || b > '9')) = b.isDigit := by
  have h1 : (b < '0') ↔ b.toNat < 48 := Iff.rfl
  have h2 : (b > '9') ↔ 57 < b.toNat := Iff.rfl
  have h3 : (b.val ≥ 48) ↔ 48 ≤ b.toNat := Iff.rfl
  have h4 : (b.val ≤ 57) ↔ b.toNat ≤ 57 := Iff.rfl
  unfold Char.isDigit
  rw [Bool.eq_iff_iff]
  simp only [Bool.not_eq_true', Bool.or_eq_false_iff, decide_eq_false_iff_not,
    Bool.and_eq_true, decide_eq_true_eq, h1, h2, h3, h4]
  omega

theorem validOptionalPort_digits (c : Char) (cs : List Char)
    (h : url.validOptionalPort (c :: cs) = true) : ∀ b ∈ cs, b.isDigit = true := by
  unfold url.validOptionalPort at h
  simp only [Bool.and_eq_true, List.all_eq_true] at h
  intro b hb
  rw [← digit_range]
  exact h.2 b hb

theorem splitHostPort_port_digits (hostPort : List Char) :
    ∀ b ∈ (url.splitHostPort hostPort).2, b.isDigit = true := by
  have key : ∀ b ∈ (match url.lastColon hostPort with
      | some colon =>
        if url.validOptionalPort (hostPort.drop colon) then
          (hostPort.take colon, hostPort.drop (colon + 1))
        else (hostPort, [])
      | none => (hostPort, [])).2, b.isDigit = true := by
    cases url.lastColon hostPort with
    | none => intro b hb; cases hb
    | some colon =>
      by_cases hv : url.validOptionalPort (hostPort.drop colon) = true
      · simp only [hv, if_true]
        rw [← List.tail_drop]
        cases hd : hostPort.drop colon with
        | nil => intro b hb; cases hb
        | cons c cs =>
          rw [hd] at hv
          exact validOptionalPort_digits c cs hv
      · simp only [hv]
        intro b hb
        cases hb
  unfold url.splitHostPort
  simp only
  split <;> exact key

theorem port_digits (u : url.URL) : ∀ b ∈ u.Port.toList, b.isDigit = true :=
  splitHostPort_port_digits u.Host.toList

theorem foldlM_digits (cs : List Char) (h : ∀ b ∈ cs, b.isDigit = true) (acc : Nat) :
    cs.foldlM (fun a d => if d.isDigit then some (a * 10 + (d.toNat - 48)) else none) acc
      = some (cs.foldl (fun a c => a * 10 + (c.toNat - 48)) acc) := by
  induction cs generalizing acc with
  | nil => rfl
  | cons c cs ih =>
    have hc : c.isDigit = true := h c (List.mem_cons_self _ _)
    simp only [List.foldlM_cons, hc, if_true, List.foldl_cons]
    exact ih (fun b hb => h b (List.mem_cons_of_mem _ hb)) _

theorem digits_eq_decimalValue (s : String) (hne : s ≠ "")
    (h : ∀ b ∈ s.toList, b.isDigit = true) :
    strconv.digits s.toList = some (decimalValue s) := by
  unfold decimalValue
  cases hs : s.toList with
  | nil =>
    exact absurd (String.ext hs) hne
  | cons c cs =>
    rw [hs] at h
    exact foldlM_digits (c :: cs) h 0

theorem Atoi_digits (s : String) (hne : s ≠ "") (h : ∀ b ∈ s.toList, b.isDigit = true) :
    strconv.Atoi s =
      if decimalValue s < 2 ^ 63 then some (decimalValue s : Int) else none := by
  have hd := digits_eq_decimalValue s hne h
  unfold strconv.Atoi
  split
  · rename_i cs hs
    have := h '-' (by rw [hs]; exact List.mem_cons_self _ _)
    exact absurd this (by decide)
  · rename_i cs hs
    have := h '+' (by rw [hs]; exact List.mem_cons_self _ _)
    exact absurd this (by decide)
  · rw [hd]

theorem ParseUint_digits (s : String) (hne : s ≠ "") (h : ∀ b ∈ s.toList, b.isDigit = true)
    (bitSize : Nat) :
    strconv.ParseUint s bitSize =
      if decimalValue s < 2 ^ bitSize then some (decimalValue s) else none := by
  unfold strconv.ParseUint
  rw [digits_eq_decimalValue s hne h]

/-! ## The auth gate -/

open inbound in
/-- C1: with non-empty user and password the gate of `newBasicAuth` accepts a
request exactly when the first value of its `Proxy-Authorization` header is
`Basic ` followed by the standard base64 encoding of `user:password`; with a
non-empty token the gate of `newBearerAuth` accepts exactly when that value
is `Bearer ` followed by the token; both gates reject a request without the
header. -/
theorem auth_gate_accepts_iff_exact_credential (params : Params) :
    (params.get "user" ≠ "" → params.get "password" ≠ "" →
      ∃ gate, newBasicAuth params = .ok gate ∧
        (∀ req : http.Request, gate req = true ↔
          firstValue req.Header "Proxy-Authorization" =
            some ("Basic " ++ base64.EncodeToString
              (bytesOf (params.get "user" ++ ":" ++ params.get "password")))) ∧
        (∀ req : http.Request,
          List.lookup "Proxy-Authorization" req.Header = none → gate req = false)) ∧
    (params.get "token" ≠ "" →
      ∃ gate, newBearerAuth params = .ok gate ∧
        (∀ req : http.Request, gate req = true ↔
          firstValue req.Header "Proxy-Authorization" =
            some ("Bearer " ++ params.get "token")) ∧
        (∀ req : http.Request,
          List.lookup "Proxy-Authorization" req.Header = none → gate req = false)) := by
  refine ⟨fun hu hp => ?_, fun ht => ?_⟩
  · have hu0 : ¬ (params.get ParamsKeyUser).length = 0 :=
      fun h => hu ((length_eq_zero_iff _).mp h)
    have hp0 : ¬ (params.get ParamsKeyPassword).length = 0 :=
      fun h => hp ((length_eq_zero_iff _).mp h)
    have hne : ∀ x : String, "Basic " ++ x ≠ "" :=
      fun x => append_ne_empty _ _ (by decide)
    refine ⟨_, by simp only [newBasicAuth, if_neg hu0, if_neg hp0]; rfl, fun req => ?_,
      fun req hl => ?_⟩
    · rw [beq_iff_eq]
      exact get_eq_iff_firstValue _ _ (hne _)
    · rw [beq_eq_false_iff_ne, get_absent _ hl]
      exact fun e => hne _ e.symm
  · have ht0 : ¬ (params.get ParamsKeyToken).length = 0 :=
      fun h => ht ((length_eq_zero_iff _).mp h)
    have hne : ∀ x : String, "Bearer " ++ x ≠ "" :=
      fun x => append_ne_empty _ _ (by decide)
    refine ⟨_, by simp only [newBearerAuth, if_neg ht0]; rfl, fun req => ?_, fun req hl => ?_⟩
    · rw [beq_iff_eq]
      exact get_eq_iff_firstValue _ _ (hne _)
    · rw [beq_eq_false_iff_ne, get_absent _ hl]
      exact fun e => hne _ e.symm

/-- Witness of C1 at user `root`, password `123123` and token `abc`. -/
theorem auth_gate_accepts_iff_exact_credential_witness :
    (∃ gate, inbound.newBasicAuth [("user", "root"), ("password", "123123"), ("token", "abc")]
        = .ok gate ∧
      (∀ req : http.Request, gate req = true ↔
        firstValue req.Header "Proxy-Authorization" = some "Basic cm9vdDoxMjMxMjM=") ∧
      (∀ req : http.Request,
        List.lookup "Proxy-Authorization" req.Header = none → gate req = false)) ∧
    (∃ gate, inbound.newBearerAuth [("user", "root"), ("password", "123123"), ("token", "abc")]
        = .ok gate ∧
      (∀ req : http.Request, gate req = true ↔
        firstValue req.Header "Proxy-Authorization" = some "Bearer abc") ∧
      (∀ req : http.Request,
        List.lookup "Proxy-Authorization" req.Header = none → gate req = false)) :=
  ⟨(auth_gate_accepts_iff_exact_credential
      [("user", "root"), ("password", "123123"), ("token", "abc")]).1 (by decide) (by decide),
   (auth_gate_accepts_iff_exact_credential
      [("user", "root"), ("password", "123123"), ("token", "abc")]).2 (by decide)⟩


open inbound in
/-- C4: the construction of the gate fails when a required parameter is
missing.  With user, or password, absent or empty `newBasicAuth` returns an
error, and so does `newHTTPInbound` under `auth_type = basic`; with token
absent or empty `newBearerAuth` returns an error, and so does
`newHTTPInbound` under `auth_type = bearer`; with the required parameters
non-empty both constructors return a gate, and `newHTTPInbound` then fails
only when the listener does. -/
theorem auth_construction_fails_iff_parameter_missing (params : Params) :
    ((missing params "user" ∨ missing params "password") →
      (∃ err, newBasicAuth params = .error err) ∧
      (List.lookup "auth_type" params = some "basic" →
        ∀ (D : Type) (listenerGet : String → String → Except String D) (addr : String),
          ∃ err, newHTTPInbound listenerGet addr params = .error err)) ∧
    (missing params "token" →
      (∃ err, newBearerAuth params = .error err) ∧
      (List.lookup "auth_type" params = some "bearer" →
        ∀ (D : Type) (listenerGet : String → String → Except String D) (addr : String),
          ∃ err, newHTTPInbound listenerGet addr params = .error err)) ∧
    (¬ missing params "user" → ¬ missing params "password" →
      (∃ gate, newBasicAuth params = .ok gate) ∧
      (List.lookup "auth_type" params = some "basic" →
        ∀ (D : Type) (listenerGet : String → String → Except String D) (addr : String) (dial : D),
          listenerGet "tcp" addr = .ok dial →
          ∃ l, newHTTPInbound listenerGet addr params = .ok l)) ∧
    (¬ missing params "token" →
      (∃ gate, newBearerAuth params = .ok gate) ∧
      (List.lookup "auth_type" params = some "bearer" →
        ∀ (D : Type) (listenerGet : String → String → Except String D) (addr : String) (dial : D),
          listenerGet "tcp" addr = .ok dial →
          ∃ l, newHTTPInbound listenerGet addr params = .ok l)) := by
  have hlen : ∀ key, (params.get key).length = 0 ↔ missing params key :=
    fun key => (length_eq_zero_iff _).trans (get_eq_empty_iff _ _)
  refine ⟨fun h => ?_, fun h => ?_, fun hu hp => ?_, fun ht => ?_⟩
  · have hb : ∃ err, newBasicAuth params = .error err := by
      unfold newBasicAuth
      by_cases hu : (params.get ParamsKeyUser).length = 0
      · exact ⟨_, by simp only [if_pos hu]; rfl⟩
      · have hp : (params.get ParamsKeyPassword).length = 0 :=
          (hlen _).mpr (h.resolve_left (fun m => hu ((hlen _).mpr m)))
        exact ⟨_, by simp only [if_neg hu, if_pos hp]; rfl⟩
    refine ⟨hb, fun ha D listenerGet addr => ?_⟩
    obtain ⟨err, he⟩ := hb
    refine ⟨err, ?_⟩
    have ha1 : List.lookup ParamsKeyAuthType params = some "basic" := ha
    simp only [newHTTPInbound, ha1, AuthTypeBasic, if_true, he]
  · have hb : ∃ err, newBearerAuth params = .error err := by
      unfold newBearerAuth
      exact ⟨_, by simp only [if_pos ((hlen ParamsKeyToken).mpr h)]; rfl⟩
    refine ⟨hb, fun ha D listenerGet addr => ?_⟩
    obtain ⟨err, he⟩ := hb
    refine ⟨err, ?_⟩
    have ha1 : List.lookup ParamsKeyAuthType params = some "bearer" := ha
    have hne : ¬ ("bearer" = AuthTypeBasic) := by decide
    simp only [newHTTPInbound, ha1, AuthTypeBearer, if_neg hne, if_true, he]
  · have hu0 : ¬ (params.get ParamsKeyUser).length = 0 := fun e => hu ((hlen _).mp e)
    have hp0 : ¬ (params.get ParamsKeyPassword).length = 0 := fun e => hp ((hlen _).mp e)
    have hb : ∃ gate, newBasicAuth params = .ok gate :=
      ⟨_, by simp only [newBasicAuth, if_neg hu0, if_neg hp0]; rfl⟩
    refine ⟨hb, fun ha D listenerGet addr dial hd => ?_⟩
    obtain ⟨gate, hg⟩ := hb
    have ha1 : List.lookup ParamsKeyAuthType params = some "basic" := ha
    exact ⟨_, by simp only [newHTTPInbound, ha1, AuthTypeBasic, if_true, hg, hd]; rfl⟩
  · have ht0 : ¬ (params.get ParamsKeyToken).length = 0 := fun e => ht ((hlen _).mp e)
    have hb : ∃ gate, newBearerAuth params = .ok gate :=
      ⟨_, by simp only [newBearerAuth, if_neg ht0]; rfl⟩
    refine ⟨hb, fun ha D listenerGet addr dial hd => ?_⟩
    obtain ⟨gate, hg⟩ := hb
    have ha1 : List.lookup ParamsKeyAuthType params = some "bearer" := ha
    have hne : ¬ ("bearer" = AuthTypeBasic) := by decide
    exact ⟨_, by simp only [newHTTPInbound, ha1, AuthTypeBearer, if_neg hne, if_true, hg, hd]; rfl⟩

/-- Witness of C4: a map with `auth_type = basic` and an empty user. -/
theorem auth_construction_fails_iff_parameter_missing_witness :
    (∃ err, inbound.newBasicAuth [("auth_type", "basic"), ("user", ""), ("password", "x")]
      = .error err) ∧
    (∃ gate, inbound.newBearerAuth [("auth_type", "bearer"), ("token", "abc")] = .ok gate) :=
  ⟨((auth_construction_fails_iff_parameter_missing
      [("auth_type", "basic"), ("user", ""), ("password", "x")]).1
      (Or.inl (Or.inr (by decide)))).1,
   ((auth_construction_fails_iff_parameter_missing
      [("auth_type", "bearer"), ("token", "abc")]).2.2.2
      (by unfold missing; decide)).1⟩

/-- C5, as stated, fails: with `auth_type = none` the construction returns an
error, whatever the listener does. -/
theorem auth_type_none_is_refused :
    inbound.newHTTPInbound (fun _ _ => Except.ok ()) ":8080" [("auth_type", "none")]
      = .error "[http.Inbound] is not support" := by
  rfl

open inbound in
/-- C5, amended: when `auth_type` is not configured, `newHTTPInbound` fails
only when the listener does and its gate accepts every request, whatever the
other entries of the map; a configured `auth_type` other than `basic` and
`bearer` (such as `none`) makes `newHTTPInbound` return an error. -/
theorem auth_type_absent_allows_all (params : Params) (D : Type)
    (listenerGet : String → String → Except String D) (addr : String) :
    (List.lookup "auth_type" params = none →
      (∀ dial, listenerGet "tcp" addr = .ok dial →
        ∃ l, newHTTPInbound listenerGet addr params = .ok l ∧
          ∀ req : http.Request, l.authFunc req = true) ∧
      (∀ err, newHTTPInbound listenerGet addr params = .error err →
        listenerGet "tcp" addr = .error err)) ∧
    (∀ v, List.lookup "auth_type" params = some v → v ≠ "basic" → v ≠ "bearer" →
      newHTTPInbound listenerGet addr params = .error "[http.Inbound] is not support") := by
  refine ⟨fun hn => ⟨fun dial hd => ?_, fun err he => ?_⟩, fun v hv h1 h2 => ?_⟩
  · have hn1 : List.lookup ParamsKeyAuthType params = none := hn
    exact ⟨{ dial := dial, authFunc := fun _ => true },
      by simp only [newHTTPInbound, hn1, hd], fun _ => rfl⟩
  · have hn1 : List.lookup ParamsKeyAuthType params = none := hn
    simp only [newHTTPInbound, hn1] at he
    cases hl : listenerGet "tcp" addr with
    | error e =>
      rw [hl] at he
      simpa using he
    | ok d =>
      rw [hl] at he
      simp at he
  · have hv1 : List.lookup ParamsKeyAuthType params = some v := hv
    have h1a : ¬ v = AuthTypeBasic := h1
    have h2a : ¬ v = AuthTypeBearer := h2
    simp only [newHTTPInbound, hv1, if_neg h1a, if_neg h2a]

/-- Witness of the amended C5: a map with credentials but no `auth_type`. -/
theorem auth_type_absent_allows_all_witness :
    ∃ l, inbound.newHTTPInbound (fun _ _ => Except.ok ()) ":8080"
        [("user", "root"), ("password", "123123")] = .ok l ∧
      ∀ req : http.Request, l.authFunc req = true :=
  ((auth_type_absent_allows_all [("user", "root"), ("password", "123123")] Unit
    (fun _ _ => Except.ok ()) ":8080").1 (by decide)).1 () rfl

/-! ## Stripping the proxy headers -/

open inbound in
/-- C7: for a request whose header names are in canonical form,
`filterProxyHeader` leaves no header whose name begins with `Proxy`, keeps
every other header with the same values, and changes nothing else of the
request. -/
theorem filterProxyHeader_removes_exactly_proxy_headers (req : http.Request)
    (hcanon : ∀ e ∈ req.Header, textproto.CanonicalMIMEHeaderKey e.1 = e.1) :
    (∀ e ∈ (filterProxyHeader req).Header, strings.HasPrefix e.1 "Proxy" = false) ∧
    (∀ k, strings.HasPrefix k "Proxy" = true →
      List.lookup k (filterProxyHeader req).Header = none) ∧
    (∀ k, strings.HasPrefix k "Proxy" = false →
      List.lookup k (filterProxyHeader req).Header = List.lookup k req.Header) ∧
    (filterProxyHeader req).Method = req.Method ∧
    (filterProxyHeader req).URL = req.URL := by
  have hks : ∀ k ∈ req.Header.map Prod.fst, textproto.CanonicalMIMEHeaderKey k = k := by
    intro k hk
    obtain ⟨e, he, rfl⟩ := List.mem_map.mp hk
    exact hcanon e he
  have hloop := filterLoop_eq_filter _ hks req.Header
  have hfilter : (filterProxyHeader req).Header =
      req.Header.filter (fun e => !(strings.HasPrefix e.1 "Proxy")) := by
    show filterLoop _ _ = _
    rw [hloop]
    apply List.filter_congr
    intro e he
    have : (List.map Prod.fst req.Header).contains e.1 = true := by
      simpa using ⟨e.2, he⟩
    simp only [this, Bool.true_and]
  refine ⟨fun e he => ?_, fun k hk => ?_, fun k hk => ?_, rfl, rfl⟩
  · rw [hfilter] at he
    simpa using (List.mem_filter.mp he).2
  · rw [hfilter, lookup_filter_key (fun k => !(strings.HasPrefix k "Proxy"))]
    simp [hk]
  · rw [hfilter, lookup_filter_key (fun k => !(strings.HasPrefix k "Proxy"))]
    simp [hk]

/-- Witness of C7: a request with two proxy headers and two others. -/
theorem filterProxyHeader_removes_exactly_proxy_headers_witness :
    (inbound.filterProxyHeader
      { Method := "GET", URL := { Scheme := "http", Host := "example.com", string := "http://example.com/" },
        Proto := "HTTP/1.1", Host := "example.com",
        Header := [("Proxy-Authorization", ["Basic cm9vdDoxMjMxMjM="]), ("Accept", ["a", "b"]),
                   ("Proxy-Connection", ["keep-alive"]), ("User-Agent", ["curl"])] }).Header
      = [("Accept", ["a", "b"]), ("User-Agent", ["curl"])] ∧
    ∀ e ∈ (inbound.filterProxyHeader
      { Method := "GET", URL := { Scheme := "http", Host := "example.com", string := "http://example.com/" },
        Proto := "HTTP/1.1", Host := "example.com",
        Header := [("Proxy-Authorization", ["Basic cm9vdDoxMjMxMjM="]), ("Accept", ["a", "b"]),
                   ("Proxy-Connection", ["keep-alive"]), ("User-Agent", ["curl"])] }).Header,
      strings.HasPrefix e.1 "Proxy" = false :=
  ⟨by decide,
   (filterProxyHeader_removes_exactly_proxy_headers _ (by decide)).1⟩

/-! ## The two handshakes -/

open inbound in
theorem httpHandshake_eq (req : http.Request) (c : CtxConn) :
    httpHandshake req c =
      if req.URL.Port = "" then
        .ok { req := filterProxyHeader req,
              ICtxConn := c.withRequestInfo
                { network := "tcp", domain := req.URL.Hostname, uri := req.URL.string,
                  ip := [], port := 80, countryCode := "" } }
      else if decimalValue req.URL.Port < 2 ^ 63 then
        .ok { req := filterProxyHeader req,
              ICtxConn := c.withRequestInfo
                { network := "tcp", domain := req.URL.Hostname, uri := req.URL.string,
                  ip := [], port := (decimalValue req.URL.Port : Int), countryCode := "" } }
      else .error (.port req.URL.Port) := by
  unfold httpHandshake
  by_cases hp : req.URL.Port = ""
  · simp only [hp, ne_eq, not_true_eq_false, if_false, if_true]
    rfl
  · rw [if_neg hp]
    simp only [ne_eq, hp, not_false_eq_true, if_true]
    rw [Atoi_digits _ hp (port_digits req.URL)]
    by_cases hv : decimalValue req.URL.Port < 2 ^ 63
    · simp only [hv, if_true]
    · simp only [hv, if_false]

open inbound in
theorem httpsHandshake_eq (req : http.Request) (c : CtxConn) :
    (httpsHandshake req c true).2 =
      if req.URL.Port = "" then
        .ok (c.withRequestInfo
          { network := "tcp", domain := req.URL.Hostname, uri := req.URL.string,
            ip := [], port := 443, countryCode := "" })
      else if decimalValue req.URL.Port < 2 ^ 63 then
        .ok (c.withRequestInfo
          { network := "tcp", domain := req.URL.Hostname, uri := req.URL.string,
            ip := [], port := (decimalValue req.URL.Port : Int), countryCode := "" })
      else .error (.port req.URL.Port) := by
  unfold httpsHandshake
  by_cases hp : req.URL.Port = ""
  · simp only [hp, ne_eq, not_true_eq_false, if_false, if_true, Bool.not_true]
    rfl
  · rw [if_neg hp]
    simp only [ne_eq, hp, not_false_eq_true, if_true, Bool.not_true, if_false]
    rw [Atoi_digits _ hp (port_digits req.URL)]
    by_cases hv : decimalValue req.URL.Port < 2 ^ 63
    · simp only [hv, if_true, Bool.false_eq_true, if_false]
    · simp only [hv, if_false, Bool.false_eq_true]

open inbound in
/-- C6: the request information built by `httpHandshake` has network `tcp`,
the host name of the URL as domain, the string form of the URL as uri, and
as port the decimal value of the explicit port of the URL, or 80 when the
URL has none; `httpsHandshake` (once its reply is written) builds the same
with 443 as default.  An explicit port that `strconv.Atoi` cannot convert,
which is one whose value does not fit an `int`, makes both handshakes return
an error.  A failed write of the reply makes `httpsHandshake` return an
error. -/
theorem handshake_request_fields (req : http.Request) (c : CtxConn) :
    (req.URL.Port = "" →
      (∃ hc, httpHandshake req c = .ok hc ∧
        ∃ r, hc.ICtxConn.requestInfo = some r ∧ describes r req 80) ∧
      (∃ c1, (httpsHandshake req c true).2 = .ok c1 ∧
        ∃ r, c1.requestInfo = some r ∧ describes r req 443)) ∧
    (req.URL.Port ≠ "" → ∀ n, strconv.Atoi req.URL.Port = some n →
      n = (decimalValue req.URL.Port : Int) ∧
      (∃ hc, httpHandshake req c = .ok hc ∧
        ∃ r, hc.ICtxConn.requestInfo = some r ∧ describes r req n) ∧
      (∃ c1, (httpsHandshake req c true).2 = .ok c1 ∧
        ∃ r, c1.requestInfo = some r ∧ describes r req n)) ∧
    (req.URL.Port ≠ "" → strconv.Atoi req.URL.Port = none →
      2 ^ 63 ≤ decimalValue req.URL.Port ∧
      httpHandshake req c = .error (.port req.URL.Port) ∧
      (httpsHandshake req c true).2 = .error (.port req.URL.Port)) ∧
    (httpsHandshake req c false).2 = .error .write := by
  have e1 := httpHandshake_eq req c
  have e2 := httpsHandshake_eq req c
  refine ⟨fun hp => ?_, fun hp n hn => ?_, fun hp hn => ?_, rfl⟩
  · rw [if_pos hp] at e1 e2
    exact ⟨⟨_, e1, _, rfl, rfl, rfl, rfl, rfl⟩, ⟨_, e2, _, rfl, rfl, rfl, rfl, rfl⟩⟩
  · rw [Atoi_digits _ hp (port_digits req.URL)] at hn
    by_cases hv : decimalValue req.URL.Port < 2 ^ 63
    · rw [if_pos hv] at hn
      have hn1 : (decimalValue req.URL.Port : Int) = n := Option.some.inj hn
      rw [if_neg hp, if_pos hv, hn1] at e1 e2
      exact ⟨hn1.symm, ⟨_, e1, _, rfl, rfl, rfl, rfl, rfl⟩, ⟨_, e2, _, rfl, rfl, rfl, rfl, rfl⟩⟩
    · rw [if_neg hv] at hn
      cases hn
  · rw [Atoi_digits _ hp (port_digits req.URL)] at hn
    by_cases hv : decimalValue req.URL.Port < 2 ^ 63
    · rw [if_pos hv] at hn
      cases hn
    · rw [if_neg hp, if_neg hv] at e1 e2
      exact ⟨Nat.le_of_not_lt hv, e1, e2⟩

/-- Witness of C6: the URL host `example.com:8080` gives port 8080, and the
port `99999999999999999999` is refused. -/
theorem handshake_request_fields_witness :
    (∃ hc, inbound.httpHandshake sampleGet sampleConn = .ok hc ∧
      ∃ r, hc.ICtxConn.requestInfo = some r ∧ describes r sampleGet 8080) ∧
    inbound.httpHandshake sampleHugePort sampleConn = .error (.port "99999999999999999999") :=
  ⟨((handshake_request_fields sampleGet sampleConn).2.1 (by decide) 8080 (by decide)).2.1,
   ((handshake_request_fields sampleHugePort sampleConn).2.2.1 (by decide) (by decide)).2.1⟩

/-! ## The read loop -/

open inbound in
theorem downstream_withProtocol (conn : CtxConn) (p : String) (s : Step) :
    downstream (conn.withProtocol p) s = downstream conn s := rfl

open inbound in
theorem serve_of_continues (authFunc : AuthFunc) (conn : CtxConn) (s : Step) (rest : List Step)
    (h : continues authFunc conn s = true) :
    ∃ c, downstream conn s = some c ∧
      serve authFunc conn (s :: rest) = .goHandle c :: serve authFunc (conn.withProtocol "http") rest := by
  unfold continues authenticated isConnect at h
  unfold downstream at h ⊢
  rw [serve]
  cases hr : s.read with
  | eof => rw [hr] at h; simp at h
  | failed => rw [hr] at h; simp at h
  | ok req =>
    rw [hr] at h
    simp only [Bool.and_eq_true, Bool.not_eq_true', beq_eq_false_iff_ne, ne_eq] at h
    obtain ⟨⟨ha, hm⟩, hd⟩ := h
    simp only [if_neg hm] at hd ⊢
    simp only [ha, Bool.not_true, Bool.false_eq_true, if_false]
    cases hh : httpHandshake req (conn.withProtocol "http") with
    | error e => rw [hh] at hd; simp at hd
    | ok c => exact ⟨_, rfl, rfl⟩

open inbound in
theorem serve_append_of_continues (authFunc : AuthFunc) (pre : List Step) :
    ∀ (conn : CtxConn) (rest : List Step),
      (∀ s ∈ pre, continues authFunc conn s = true) →
      ∃ cs : List Conn,
        cs.map some = pre.map (downstream conn) ∧
        serve authFunc conn (pre ++ rest) =
          cs.map Event.goHandle ++ serve authFunc (connAfter conn pre) rest := by
  induction pre with
  | nil =>
    intro conn rest _
    exact ⟨[], rfl, rfl⟩
  | cons s pre ih =>
    intro conn rest h
    obtain ⟨c, hc, hs⟩ := serve_of_continues authFunc conn s (pre ++ rest)
      (h s (List.mem_cons_self _ _))
    obtain ⟨cs, hcs, hrest⟩ := ih (conn.withProtocol "http") rest
      (fun x hx => h x (List.mem_cons_of_mem _ hx))
    refine ⟨c :: cs, ?_, ?_⟩
    · simp only [List.map_cons, hc, hcs]
      rfl
    · rw [List.cons_append, hs, hrest]
      have : connAfter (conn.withProtocol "http") pre = connAfter conn (s :: pre) := by
        unfold connAfter
        cases pre <;> rfl
      rw [this]
      rfl

theorem handled_goHandle (cs : List inbound.Conn) (evs : List inbound.Event) :
    inbound.handled (cs.map inbound.Event.goHandle ++ evs) = cs ++ inbound.handled evs := by
  induction cs with
  | nil => rfl
  | cons c cs ih =>
    show c :: inbound.handled (cs.map inbound.Event.goHandle ++ evs) = c :: (cs ++ inbound.handled evs)
    rw [ih]

open inbound in
theorem httpsHandshake_fst (req : http.Request) (c : CtxConn) (w : Bool) :
    (httpsHandshake req c w).1 =
      [.write (.bytes (req.Proto ++ " 200 Connection established\r\n\r\n")) w] := by
  unfold httpsHandshake
  cases w
  · rfl
  · simp only [Bool.not_true, Bool.false_eq_true, if_false]
    split
    · split <;> rfl
    · rfl

open inbound in
theorem serve_of_rejected (authFunc : AuthFunc) (conn : CtxConn) (s : Step) (rest : List Step)
    (req : http.Request) (hr : s.read = .ok req) (ha : authFunc req = false) :
    serve authFunc conn (s :: rest) = [.write (.response 407) s.writeOk, .close] := by
  rw [serve]
  simp only [hr, ha, Bool.not_false, if_true]
  rfl

open inbound in
theorem serve_of_accepted (authFunc : AuthFunc) (conn : CtxConn) (s : Step) (rest : List Step)
    (req : http.Request) (hr : s.read = .ok req) (ha : authFunc req = true)
    (hm : ¬ req.Method = http.MethodConnect) :
    serve authFunc conn (s :: rest) =
      match httpHandshake req (conn.withProtocol "http") with
      | .error _ => [.close]
      | .ok c => .goHandle (.http c) :: serve authFunc (conn.withProtocol "http") rest := by
  rw [serve]
  simp only [hr, ha, Bool.not_true, Bool.false_eq_true, if_false, hm]

theorem uptoConnect_cons_of_not (s : inbound.Step) (rest : List inbound.Step)
    (h : ¬ isConnect s = true) : uptoConnect (s :: rest) = s :: uptoConnect rest := by
  rw [uptoConnect, if_neg h]

theorem uptoConnect_cons_of_connect (s : inbound.Step) (rest : List inbound.Step)
    (h : isConnect s = true) : uptoConnect (s :: rest) = [s] := by
  rw [uptoConnect, if_pos h]

open inbound in
theorem serve_of_connect (authFunc : AuthFunc) (conn : CtxConn) (s : Step) (rest : List Step)
    (req : http.Request) (hr : s.read = .ok req) (ha : authFunc req = true)
    (hm : req.Method = http.MethodConnect) :
    serve authFunc conn (s :: rest) =
      .write (.bytes (req.Proto ++ " 200 Connection established\r\n\r\n")) s.writeOk ::
        (match downstream conn s with
          | some c => [.handle c, .close]
          | none => [.close]) := by
  rw [serve]
  unfold downstream
  simp only [hr, ha, Bool.not_true, Bool.false_eq_true, if_false, hm, if_true]
  have h1 := httpsHandshake_fst req (conn.withProtocol "https") s.writeOk
  rcases hh : httpsHandshake req (conn.withProtocol "https") s.writeOk with ⟨evs, r⟩
  rw [hh] at h1
  simp only at h1
  subst h1
  cases r <;> rfl

open inbound in
theorem serve_uptoConnect (authFunc : AuthFunc) (steps : List Step) :
    ∀ conn : CtxConn, serve authFunc conn (uptoConnect steps) = serve authFunc conn steps := by
  induction steps with
  | nil => intro conn; rfl
  | cons s rest ih =>
    intro conn
    by_cases hc : isConnect s = true
    · rw [uptoConnect_cons_of_connect s rest hc]
      unfold isConnect at hc
      cases hr : s.read with
      | eof => rw [hr] at hc; simp at hc
      | failed => rw [hr] at hc; simp at hc
      | ok req =>
        rw [hr] at hc
        have hm : req.Method = http.MethodConnect := by simpa using hc
        cases ha : authFunc req with
        | true =>
          rw [serve_of_connect authFunc conn s [] req hr ha hm,
            serve_of_connect authFunc conn s rest req hr ha hm]
        | false =>
          rw [serve_of_rejected authFunc conn s [] req hr ha,
            serve_of_rejected authFunc conn s rest req hr ha]
    · rw [uptoConnect_cons_of_not s rest hc]
      cases hr : s.read with
      | eof =>
        rw [serve, serve]
        simp only [hr]
      | failed =>
        rw [serve, serve]
        simp only [hr]
      | ok req =>
        have hm : ¬ req.Method = http.MethodConnect := by
          intro hm
          apply hc
          unfold isConnect
          rw [hr]
          simpa using hm
        cases ha : authFunc req with
        | false =>
          rw [serve_of_rejected authFunc conn s _ req hr ha,
            serve_of_rejected authFunc conn s rest req hr ha]
        | true =>
          rw [serve_of_accepted authFunc conn s _ req hr ha hm,
            serve_of_accepted authFunc conn s rest req hr ha hm, ih]

theorem uptoConnect_append (steps rest : List inbound.Step) (h : steps.any isConnect = true) :
    uptoConnect (steps ++ rest) = uptoConnect steps := by
  induction steps with
  | nil => simp at h
  | cons s tl ih =>
    by_cases hc : isConnect s = true
    · rw [List.cons_append, uptoConnect_cons_of_connect _ _ hc, uptoConnect_cons_of_connect _ _ hc]
    · have h1 : tl.any isConnect = true := by
        simpa [List.any_cons, hc] using h
      rw [List.cons_append, uptoConnect_cons_of_not _ _ hc, uptoConnect_cons_of_not _ _ hc, ih h1]

open inbound in
theorem handled_uptoConnect (authFunc : AuthFunc) (steps : List Step) :
    ∀ conn : CtxConn,
      (∀ s ∈ steps, authenticated authFunc s = true) →
      (∀ s ∈ uptoConnect steps, (downstream conn s).isSome = true) →
      (handled (serve authFunc conn steps)).map some = (uptoConnect steps).map (downstream conn) := by
  induction steps with
  | nil => intro conn _ _; rfl
  | cons s rest ih =>
    intro conn hauth hhs
    have ha := hauth s (List.mem_cons_self _ _)
    by_cases hc : isConnect s = true
    · have hu : uptoConnect (s :: rest) = [s] := uptoConnect_cons_of_connect s rest hc
      rw [hu] at hhs ⊢
      have hd := hhs s (List.mem_cons_self _ _)
      unfold authenticated at ha
      unfold isConnect at hc
      cases hr : s.read with
      | eof => rw [hr] at hc; simp at hc
      | failed => rw [hr] at hc; simp at hc
      | ok req =>
        rw [hr] at hc ha
        have hm : req.Method = http.MethodConnect := by simpa using hc
        rw [serve_of_connect authFunc conn s rest req hr ha hm]
        cases hds : downstream conn s with
        | none => rw [hds] at hd; simp at hd
        | some c =>
          simp only [List.map_cons, List.map_nil, hds]
          rfl
    · have hu : uptoConnect (s :: rest) = s :: uptoConnect rest :=
        uptoConnect_cons_of_not s rest hc
      rw [hu] at hhs ⊢
      have hcont : continues authFunc conn s = true := by
        unfold continues
        simp only [ha, hc, hhs s (List.mem_cons_self _ _), Bool.and_self, Bool.not_eq_true']
        simp
      obtain ⟨c, hdc, hs⟩ := serve_of_continues authFunc conn s rest hcont
      rw [hs]
      have ih1 := ih (conn.withProtocol "http")
        (fun x hx => hauth x (List.mem_cons_of_mem _ hx))
        (fun x hx => hhs x (List.mem_cons_of_mem _ hx))
      show some c :: (handled (serve authFunc (conn.withProtocol "http") rest)).map some = _
      rw [ih1, List.map_cons, hdc]
      rfl

open inbound in
/-- C3: when the handler of `newHttpHandleFunc` parses a request that the
gate rejects (the earlier iterations `pre` did not end the loop), it writes
a response with status 407 and closes the connection, whether or not the
write succeeds: the events are those of the earlier requests, then the write
of the 407 response, then the close, and the downstream handler is invoked
on the connections of the earlier requests only. -/
theorem rejected_request_gets_407_then_close (authFunc : AuthFunc) (conn : CtxConn)
    (pre : List Step) (req : http.Request) (writeOk : Bool) (rest : List Step)
    (hpre : ∀ s ∈ pre, continues authFunc conn s = true)
    (hrej : authFunc req = false) :
    ∃ cs : List Conn,
      cs.map some = pre.map (downstream conn) ∧
      newHttpHandleFunc (some authFunc) conn (pre ++ ⟨.ok req, writeOk⟩ :: rest) =
        cs.map Event.goHandle ++ [.write (.response 407) writeOk, .close] ∧
      handled (newHttpHandleFunc (some authFunc) conn (pre ++ ⟨.ok req, writeOk⟩ :: rest)) = cs ∧
      (newHttpHandleFunc (some authFunc) conn (pre ++ ⟨.ok req, writeOk⟩ :: rest)).getLast?
        = some .close := by
  obtain ⟨cs, hcs, hs⟩ := serve_append_of_continues authFunc pre conn
    (⟨.ok req, writeOk⟩ :: rest) hpre
  have hstep : serve authFunc (connAfter conn pre) (⟨.ok req, writeOk⟩ :: rest) =
      [.write (.response 407) writeOk, .close] := by
    rw [serve]
    simp only [hrej, Bool.not_false, if_true]
    rfl
  have htrace : newHttpHandleFunc (some authFunc) conn (pre ++ ⟨.ok req, writeOk⟩ :: rest) =
      cs.map Event.goHandle ++ [.write (.response 407) writeOk, .close] := by
    show serve authFunc conn _ = _
    rw [hs, hstep]
  refine ⟨cs, hcs, htrace, ?_, ?_⟩
  · rw [htrace, handled_goHandle]
    simp [handled]
  · rw [htrace]
    simp

/-- Witness of C3: an accepted request, then a rejected one whose 407
response fails to be written, then one more request. -/
theorem rejected_request_gets_407_then_close_witness :
    ∃ cs : List inbound.Conn,
      cs.map some = [(⟨.ok sampleAuthedGet, true⟩ : inbound.Step)].map (downstream sampleConn) ∧
      inbound.newHttpHandleFunc (some sampleGate) sampleConn
          ([⟨.ok sampleAuthedGet, true⟩] ++ ⟨.ok sampleGet, false⟩ :: [⟨.ok sampleAuthedGet, true⟩]) =
        cs.map inbound.Event.goHandle ++ [.write (.response 407) false, .close] ∧
      inbound.handled (inbound.newHttpHandleFunc (some sampleGate) sampleConn
          ([⟨.ok sampleAuthedGet, true⟩] ++ ⟨.ok sampleGet, false⟩ :: [⟨.ok sampleAuthedGet, true⟩]))
        = cs ∧
      (inbound.newHttpHandleFunc (some sampleGate) sampleConn
          ([⟨.ok sampleAuthedGet, true⟩] ++ ⟨.ok sampleGet, false⟩ :: [⟨.ok sampleAuthedGet, true⟩])).getLast?
        = some .close :=
  rejected_request_gets_407_then_close sampleGate sampleConn [⟨.ok sampleAuthedGet, true⟩]
    sampleGet false [⟨.ok sampleAuthedGet, true⟩] (by decide) (by decide)

/-- C2, as stated, fails: a parsed and accepted plain request whose port does
not fit an `int` makes its handshake fail, and the downstream handler is not
invoked for it although no CONNECT came before. -/
theorem handler_not_invoked_when_handshake_fails :
    (∀ s ∈ [(⟨.ok sampleHugePort, true⟩ : inbound.Step)],
      authenticated (fun _ => true) s = true) ∧
    uptoConnect [⟨.ok sampleHugePort, true⟩] = [⟨.ok sampleHugePort, true⟩] ∧
    inbound.newHttpHandleFunc none sampleConn [⟨.ok sampleHugePort, true⟩] = [.close] ∧
    inbound.handled (inbound.newHttpHandleFunc none sampleConn [⟨.ok sampleHugePort, true⟩]) = [] := by
  decide

open inbound in
/-- C2, amended: for every sequence of parsed and accepted requests read from
one connection whose handshakes succeed up to the first CONNECT, the
downstream handler is invoked exactly once for each request up to and
including the first CONNECT, in parse order, on the connection that the
handshake of that request produced; a CONNECT ends the loop (what follows
on the connection is not read), a request that is no CONNECT leaves the loop
running on the rest of the stream.  When instead the handshake of a request
fails, the loop ends and the handler is invoked for the earlier requests
only. -/
theorem handler_invoked_once_per_request_until_connect (authFunc : AuthFunc) (conn : CtxConn)
    (steps : List Step) (hauth : ∀ s ∈ steps, authenticated authFunc s = true) :
    ((∀ s ∈ uptoConnect steps, (downstream conn s).isSome = true) →
      (handled (newHttpHandleFunc (some authFunc) conn steps)).map some =
        (uptoConnect steps).map (downstream conn) ∧
      (handled (newHttpHandleFunc (some authFunc) conn steps)).length =
        (uptoConnect steps).length ∧
      (∀ rest, steps.any isConnect = true →
        newHttpHandleFunc (some authFunc) conn (steps ++ rest) =
          newHttpHandleFunc (some authFunc) conn steps) ∧
      (∀ rest, steps.any isConnect = false →
        ∃ cs : List Conn, cs.map some = steps.map (downstream conn) ∧
          newHttpHandleFunc (some authFunc) conn (steps ++ rest) =
            cs.map Event.goHandle ++
              newHttpHandleFunc (some authFunc) (connAfter conn steps) rest)) ∧
    (∀ pre s rest, steps = pre ++ s :: rest →
      (∀ x ∈ pre, isConnect x = false ∧ (downstream conn x).isSome = true) →
      downstream conn s = none →
      (handled (newHttpHandleFunc (some authFunc) conn steps)).map some =
        pre.map (downstream conn)) := by
  refine ⟨fun hhs => ?_, fun pre s rest hsteps hpre hfail => ?_⟩
  · have ha := handled_uptoConnect authFunc steps conn hauth hhs
    refine ⟨ha, ?_, fun rest hany => ?_, fun rest hany => ?_⟩
    · have := congrArg List.length ha
      simpa using this
    · show serve authFunc conn (steps ++ rest) = serve authFunc conn steps
      rw [← serve_uptoConnect authFunc (steps ++ rest), uptoConnect_append steps rest hany,
        serve_uptoConnect]
    · have hu : uptoConnect steps = steps := by
        clear ha hhs hauth
        induction steps with
        | nil => rfl
        | cons x xs ih =>
          have hx : isConnect x = false := by
            simp only [List.any_cons, Bool.or_eq_false_iff] at hany
            exact hany.1
          have hxs : xs.any isConnect = false := by
            simp only [List.any_cons, Bool.or_eq_false_iff] at hany
            exact hany.2
          rw [uptoConnect_cons_of_not x xs (by simp [hx]), ih hxs]
      rw [hu] at hhs
      have hcont : ∀ s ∈ steps, continues authFunc conn s = true := by
        intro s hs
        have hs1 : isConnect s = false := by
          have := List.any_eq_false.mp hany s hs
          simpa using this
        unfold continues
        simp only [hauth s hs, hs1, hhs s hs, Bool.not_false, Bool.and_self]
      exact serve_append_of_continues authFunc steps conn rest hcont
  · subst hsteps
    have hcont : ∀ x ∈ pre, continues authFunc conn x = true := by
      intro x hx
      unfold continues
      simp only [hauth x (List.mem_append_left _ hx), (hpre x hx).1, (hpre x hx).2,
        Bool.not_false, Bool.and_self]
    obtain ⟨cs, hcs, hs⟩ := serve_append_of_continues authFunc pre conn (s :: rest) hcont
    show (handled (serve authFunc conn (pre ++ s :: rest))).map some = _
    rw [hs, handled_goHandle, ← hcs]
    have hsa := hauth s (List.mem_append_right _ (List.mem_cons_self _ _))
    have hfail1 : downstream (connAfter conn pre) s = none := by
      unfold connAfter
      split
      · exact hfail
      · exact hfail
    have hnone : handled (serve authFunc (connAfter conn pre) (s :: rest)) = [] := by
      unfold authenticated at hsa
      cases hr : s.read with
      | eof => rw [hr] at hsa; simp at hsa
      | failed => rw [hr] at hsa; simp at hsa
      | ok req =>
        rw [hr] at hsa
        by_cases hm : req.Method = http.MethodConnect
        · rw [serve_of_connect authFunc _ s rest req hr hsa hm, hfail1]
          rfl
        · rw [serve_of_accepted authFunc _ s rest req hr hsa hm]
          unfold downstream at hfail1
          simp only [hr, hm, if_false] at hfail1
          cases hh : httpHandshake req ((connAfter conn pre).withProtocol "http") with
          | error e => rfl
          | ok c => rw [hh] at hfail1; simp at hfail1
    rw [hnone, List.append_nil]

/-- Witness of C2: two plain requests, a CONNECT, and one more request that
is never read. -/
theorem handler_invoked_once_per_request_until_connect_witness :
    (inbound.handled (inbound.newHttpHandleFunc (some sampleGate) sampleConn
        [⟨.ok sampleAuthedGet, true⟩, ⟨.ok sampleAuthedGet, true⟩,
         ⟨.ok sampleAuthedConnect, true⟩, ⟨.ok sampleAuthedGet, true⟩])).length =
      (uptoConnect [⟨.ok sampleAuthedGet, true⟩, ⟨.ok sampleAuthedGet, true⟩,
         ⟨.ok sampleAuthedConnect, true⟩, ⟨.ok sampleAuthedGet, true⟩]).length ∧
    (uptoConnect [⟨.ok sampleAuthedGet, true⟩, ⟨.ok sampleAuthedGet, true⟩,
         ⟨.ok sampleAuthedConnect, true⟩, ⟨.ok sampleAuthedGet, true⟩]).length = 3 :=
  ⟨((handler_invoked_once_per_request_until_connect sampleGate sampleConn
      [⟨.ok sampleAuthedGet, true⟩, ⟨.ok sampleAuthedGet, true⟩,
       ⟨.ok sampleAuthedConnect, true⟩, ⟨.ok sampleAuthedGet, true⟩] (by decide)).1
      (by decide)).2.1, by decide⟩

/-! ## The port of `prepareRequest` -/

theorem foldlM_nondigit (cs : List Char) (h : ∃ b ∈ cs, b.isDigit = false) (acc : Nat) :
    cs.foldlM (fun a d => if d.isDigit then some (a * 10 + (d.toNat - 48)) else none) acc
      = none := by
  induction cs generalizing acc with
  | nil =>
    obtain ⟨b, hb, _⟩ := h
    cases hb
  | cons c cs ih =>
    by_cases hc : c.isDigit = true
    · simp only [List.foldlM_cons, hc, if_true]
      obtain ⟨b, hb, hbd⟩ := h
      rcases List.mem_cons.mp hb with h1 | h1
      · rw [h1, hc] at hbd
        cases hbd
      · exact ih ⟨b, h1, hbd⟩ _
    · simp only [List.foldlM_cons, hc]
      rfl

theorem strToUint16_digits (v : String) (hne : v ≠ "") (h : ∀ b ∈ v.toList, b.isDigit = true) :
    shuttle.strToUint16 v =
      if decimalValue v ≤ 65535 then some (decimalValue v) else none := by
  unfold shuttle.strToUint16
  rw [ParseUint_digits v hne h]
  by_cases hv : decimalValue v ≤ 65535
  · have h1 : decimalValue v < 2 ^ (2 * 8) := by
      have : (2 : Nat) ^ (2 * 8) = 65536 := by norm_num
      omega
    have h2 : decimalValue v % 2 ^ 16 = decimalValue v :=
      Nat.mod_eq_of_lt (by
        have : (2 : Nat) ^ 16 = 65536 := by norm_num
        omega)
    simp only [h1, if_true, hv, h2]
  · have h1 : ¬ decimalValue v < 2 ^ (2 * 8) := by
      have : (2 : Nat) ^ (2 * 8) = 65536 := by norm_num
      omega
    simp only [h1, if_false, hv]

theorem strToUint16_nondigit (v : String) (h : ∃ b ∈ v.toList, b.isDigit = false) :
    shuttle.strToUint16 v = none := by
  unfold shuttle.strToUint16 strconv.ParseUint strconv.digits
  cases hv : v.toList with
  | nil => rfl
  | cons c cs =>
    rw [hv] at h
    simp only [foldlM_nondigit (c :: cs) h 0]

open shuttle in
theorem prepareRequest_explicit (d : Decls) (connID : Nat) (hreq : http.Request)
    (hp : hreq.URL.Port ≠ "") (hv : decimalValue hreq.URL.Port ≤ 65535) :
    ∃ r, prepareRequest d connID (.ok hreq) = .ok (r, hreq) ∧
      r.Port = (if decimalValue hreq.URL.Port = 0 then
          (if hreq.URL.Scheme = HTTP then 80
           else if hreq.Method = http.MethodConnect then 443 else 0)
        else decimalValue hreq.URL.Port) ∧
      r.Protocol = (if hreq.URL.Scheme = HTTP then d.ProtocolHttp
        else if hreq.Method = http.MethodConnect then d.ProtocolHttps else "") := by
  have hl : hreq.URL.Port.length > 0 :=
    Nat.pos_of_ne_zero (fun h => hp ((length_eq_zero_iff _).mp h))
  have hs := strToUint16_digits _ hp (port_digits hreq.URL)
  rw [if_pos hv] at hs
  unfold prepareRequest
  simp only [hl, if_true, hs]
  refine ⟨_, rfl, ?_, ?_⟩
  · by_cases h1 : strings.HasPrefix hreq.URL.string "//" = true <;>
    by_cases h2 : hreq.URL.Scheme = HTTP <;>
    by_cases h3 : hreq.Method = http.MethodConnect <;>
    by_cases h4 : decimalValue hreq.URL.Port = 0 <;>
    simp only [h1, h2, h3, h4, if_true, if_false, Bool.false_eq_true]
  · by_cases h1 : strings.HasPrefix hreq.URL.string "//" = true <;>
    by_cases h2 : hreq.URL.Scheme = HTTP <;>
    by_cases h3 : hreq.Method = http.MethodConnect <;>
    by_cases h4 : decimalValue hreq.URL.Port = 0 <;>
    simp only [h1, h2, h3, h4, if_true, if_false, Bool.false_eq_true]

open shuttle in
theorem prepareRequest_no_port (d : Decls) (connID : Nat) (hreq : http.Request)
    (hp : hreq.URL.Port = "") :
    ∃ r, prepareRequest d connID (.ok hreq) = .ok (r, hreq) ∧
      r.Port = (if hreq.URL.Scheme = HTTP then 80
        else if hreq.Method = http.MethodConnect then 443 else 0) ∧
      r.Protocol = (if hreq.URL.Scheme = HTTP then d.ProtocolHttp
        else if hreq.Method = http.MethodConnect then d.ProtocolHttps else "") := by
  have hl : ¬ hreq.URL.Port.length > 0 := by
    rw [hp]
    decide
  unfold prepareRequest
  simp only [hl, if_false]
  refine ⟨_, rfl, ?_, ?_⟩
  · by_cases h1 : strings.HasPrefix hreq.URL.string "//" = true <;>
    by_cases h2 : hreq.URL.Scheme = HTTP <;>
    by_cases h3 : hreq.Method = http.MethodConnect <;>
    simp only [h1, h2, h3, if_true, if_false, Bool.false_eq_true]
  · by_cases h1 : strings.HasPrefix hreq.URL.string "//" = true <;>
    by_cases h2 : hreq.URL.Scheme = HTTP <;>
    by_cases h3 : hreq.Method = http.MethodConnect <;>
    simp only [h1, h2, h3, if_true, if_false, Bool.false_eq_true]

open shuttle in
theorem prepareRequest_out_of_range (d : Decls) (connID : Nat) (hreq : http.Request)
    (hp : hreq.URL.Port ≠ "") (hv : 65535 < decimalValue hreq.URL.Port) :
    prepareRequest d connID (.ok hreq) = .error ("http port error:" ++ hreq.URL.Port) := by
  have hl : hreq.URL.Port.length > 0 :=
    Nat.pos_of_ne_zero (fun h => hp ((length_eq_zero_iff _).mp h))
  have hs := strToUint16_digits _ hp (port_digits hreq.URL)
  rw [if_neg (Nat.not_le_of_lt hv)] at hs
  unfold prepareRequest
  simp only [hl, if_true, hs]

/-- C10, as stated, fails: the URL `http://example.com:0/` names the port 0
explicitly, and the request of `prepareRequest` carries the default 80. -/
theorem explicit_port_zero_is_replaced :
    sampleZeroPort.URL.Port = "0" ∧
    ∃ r, shuttle.prepareRequest sampleDecls 1 (.ok sampleZeroPort) = .ok (r, sampleZeroPort) ∧
      r.Port = 80 :=
  ⟨by decide, _, rfl, rfl⟩

open shuttle in
/-- C10, amended: the request of `prepareRequest` carries the explicit port
of the URL whenever its decimal value lies in 1..65535; a port above 65535
makes `prepareRequest` return an error, and `strToUint16` refuses a string
that is not decimal; when the URL names no port, or names the port 0, the
port is the default of the protocol, 80 with protocol HTTP when the scheme
is `http`, 443 with protocol HTTPS when the method is CONNECT, and stays 0
otherwise. -/
theorem prepareRequest_port (d : Decls) (connID : Nat) (hreq : http.Request) :
    (hreq.URL.Port ≠ "" → 65535 < decimalValue hreq.URL.Port →
      prepareRequest d connID (.ok hreq) = .error ("http port error:" ++ hreq.URL.Port)) ∧
    (∀ v : String, (∃ b ∈ v.toList, b.isDigit = false) → strToUint16 v = none) ∧
    (hreq.URL.Port ≠ "" → 0 < decimalValue hreq.URL.Port →
      decimalValue hreq.URL.Port ≤ 65535 →
      ∃ r, prepareRequest d connID (.ok hreq) = .ok (r, hreq) ∧
        r.Port = decimalValue hreq.URL.Port) ∧
    ((hreq.URL.Port = "" ∨ decimalValue hreq.URL.Port = 0) →
      (hreq.URL.Scheme = HTTP →
        ∃ r, prepareRequest d connID (.ok hreq) = .ok (r, hreq) ∧
          r.Port = 80 ∧ r.Protocol = d.ProtocolHttp) ∧
      (hreq.URL.Scheme ≠ HTTP → hreq.Method = http.MethodConnect →
        ∃ r, prepareRequest d connID (.ok hreq) = .ok (r, hreq) ∧
          r.Port = 443 ∧ r.Protocol = d.ProtocolHttps) ∧
      (hreq.URL.Scheme ≠ HTTP → hreq.Method ≠ http.MethodConnect →
        ∃ r, prepareRequest d connID (.ok hreq) = .ok (r, hreq) ∧ r.Port = 0)) := by
  refine ⟨prepareRequest_out_of_range d connID hreq, strToUint16_nondigit, fun hp h0 hv => ?_,
    fun h0 => ?_⟩
  · obtain ⟨r, hr, hport, _⟩ := prepareRequest_explicit d connID hreq hp hv
    exact ⟨r, hr, by rw [hport, if_neg (Nat.pos_iff_ne_zero.mp h0)]⟩
  · have key : ∃ r, prepareRequest d connID (.ok hreq) = .ok (r, hreq) ∧
        r.Port = (if hreq.URL.Scheme = HTTP then 80
          else if hreq.Method = http.MethodConnect then 443 else 0) ∧
        r.Protocol = (if hreq.URL.Scheme = HTTP then d.ProtocolHttp
          else if hreq.Method = http.MethodConnect then d.ProtocolHttps else "") := by
      by_cases hp : hreq.URL.Port = ""
      · exact prepareRequest_no_port d connID hreq hp
      · have hz : decimalValue hreq.URL.Port = 0 := h0.resolve_left hp
        obtain ⟨r, hr, hport, hproto⟩ :=
          prepareRequest_explicit d connID hreq hp (by rw [hz]; decide)
        exact ⟨r, hr, by rw [hport, if_pos hz], hproto⟩
    obtain ⟨r, hr, hport, hproto⟩ := key
    refine ⟨fun hs => ⟨r, hr, ?_, ?_⟩, fun hs hm => ⟨r, hr, ?_, ?_⟩, fun hs hm => ⟨r, hr, ?_⟩⟩
    · rw [hport, if_pos hs]
    · rw [hproto, if_pos hs]
    · rw [hport, if_neg hs, if_pos hm]
    · rw [hproto, if_neg hs, if_pos hm]
    · rw [hport, if_neg hs, if_neg hm]

/-- Witness of C10: the port 8080 is carried, the absent port becomes 80, the
port 0 becomes 80 as well, and the port 99999999999999999999 is refused. -/
theorem prepareRequest_port_witness :
    (∃ r, shuttle.prepareRequest sampleDecls 1 (.ok sampleGet) = .ok (r, sampleGet) ∧
      r.Port = decimalValue sampleGet.URL.Port) ∧
    (∃ r, shuttle.prepareRequest sampleDecls 1 (.ok sampleNoPort) = .ok (r, sampleNoPort) ∧
      r.Port = 80 ∧ r.Protocol = sampleDecls.ProtocolHttp) ∧
    (∃ r, shuttle.prepareRequest sampleDecls 1 (.ok sampleZeroPort) = .ok (r, sampleZeroPort) ∧
      r.Port = 80 ∧ r.Protocol = sampleDecls.ProtocolHttp) ∧
    shuttle.prepareRequest sampleDecls 1 (.ok sampleHugePort) =
      .error ("http port error:" ++ sampleHugePort.URL.Port) :=
  ⟨(prepareRequest_port sampleDecls 1 sampleGet).2.2.1 (by decide) (by decide) (by decide),
   ((prepareRequest_port sampleDecls 1 sampleNoPort).2.2.2 (Or.inl (by decide))).1 (by decide),
   ((prepareRequest_port sampleDecls 1 sampleZeroPort).2.2.2 (Or.inr (by decide))).1 (by decide),
   (prepareRequest_port sampleDecls 1 sampleHugePort).1 (by decide) (by decide)⟩

/-! ## `HandleHTTP` -/

open shuttle in
theorem HandleHTTP_eq {R S : Type} (d : Decls) (t : Toggles) (w : World R S)
    (conn sc : IConn) (req : Request) (hreq : http.Request) (rule : R) (s : S)
    (err : Option String)
    (hwrap : w.wrap = .ok conn)
    (hprep : prepareRequest d conn.id w.read = .ok (req, hreq))
    (hfilter : w.filterByReq req = (rule, s, err))
    (hconn : w.conn s req = .ok sc)
    (hreply : req.Protocol = d.ProtocolHttps → w.replyOk = true) :
    HandleHTTP d t w =
      .conn s req ::
        (if req.Protocol = d.ProtocolHttps then
          [.write conn "HTTP/1.1 200 Connection established\r\n\r\n"] else []) ++
        (if (t.allowDump && decide (req.Protocol = d.ProtocolHttps) && t.allowMitm) = true then
          match w.mimt conn sc req with
          | .error _ => [.mimt conn sc req, .close conn, .close sc]
          | .ok (lct, sct) =>
            [.mimt conn sc req,
             .httpTransport lct sct
              { ID := sct.id, Protocol := req.Protocol, Created := w.now, Proxy := s,
                Status := d.RecordStatusActive, URL := req.Target, Rule := rule } true none]
        else if req.Protocol = d.ProtocolHttp then
          [.httpTransport conn sc
            { ID := sc.id, Protocol := req.Protocol, Created := w.now, Proxy := s,
              Status := d.RecordStatusActive, URL := req.Target, Rule := rule }
            t.allowDump (some hreq)]
        else
          [.recordChan
            { ID := sc.id, Protocol := req.Protocol, Created := w.now, Proxy := s,
              Status := d.RecordStatusActive, URL := req.Target, Rule := rule },
           .directTransport conn sc]) := by
  have hreplyF : ¬ (req.Protocol = d.ProtocolHttps ∧ w.replyOk = false) := by
    rintro ⟨h1, h2⟩
    rw [hreply h1] at h2
    cases h2
  unfold HandleHTTP
  simp only [hwrap, hprep, hfilter, hconn, hreplyF, if_false]
  by_cases hc : (t.allowDump && decide (req.Protocol = d.ProtocolHttps) && t.allowMitm) = true
  · simp only [hc, if_true]
    cases hm : w.mimt conn sc req with
    | error e => simp
    | ok p =>
      obtain ⟨lct, sct⟩ := p
      simp
  · simp only [hc, if_false]
    simp

open shuttle in
/-- C9: once the outbound connection stands (and the CONNECT reply is
written), `HandleHTTP` calls `Mimt` exactly when the protocol is HTTPS and
both toggles are on; then a successful `Mimt` is followed by the capturing
transport alone (`HttpTransport` on the two connections of `Mimt`, capture
on, no pending request), and a failed `Mimt` by the close of the client and
of the upstream connection and by no transport; otherwise protocol HTTP
gives `HttpTransport` alone, with the parsed request pending and capture
equal to `allowDump`, and every other case gives the record on `recordChan`
and the `DirectChannel` transport alone, with no call of `Mimt`. -/
theorem transport_mode_selection {R S : Type} (d : Decls) (t : Toggles) (w : World R S)
    (conn sc : IConn) (req : Request) (hreq : http.Request) (rule : R) (s : S)
    (err : Option String)
    (hdistinct : d.ProtocolHttp ≠ d.ProtocolHttps)
    (hwrap : w.wrap = .ok conn)
    (hprep : prepareRequest d conn.id w.read = .ok (req, hreq))
    (hfilter : w.filterByReq req = (rule, s, err))
    (hconn : w.conn s req = .ok sc)
    (hreply : req.Protocol = d.ProtocolHttps → w.replyOk = true) :
    ((HandleHTTP d t w).any isMimt = true ↔
      (req.Protocol = d.ProtocolHttps ∧ t.allowMitm = true ∧ t.allowDump = true)) ∧
    (req.Protocol = d.ProtocolHttps → t.allowMitm = true → t.allowDump = true →
      (∀ lct sct, w.mimt conn sc req = .ok (lct, sct) →
        (HandleHTTP d t w).filter isMimt = [.mimt conn sc req] ∧
        (HandleHTTP d t w).filter isTransport =
          [.httpTransport lct sct
            { ID := sct.id, Protocol := req.Protocol, Created := w.now, Proxy := s,
              Status := d.RecordStatusActive, URL := req.Target, Rule := rule } true none] ∧
        (HandleHTTP d t w).filter isClose = []) ∧
      (∀ e, w.mimt conn sc req = .error e →
        (HandleHTTP d t w).filter isTransport = [] ∧
        (HandleHTTP d t w).filter isClose = [.close conn, .close sc])) ∧
    (req.Protocol = d.ProtocolHttp →
      (HandleHTTP d t w).filter isTransport =
        [.httpTransport conn sc
          { ID := sc.id, Protocol := req.Protocol, Created := w.now, Proxy := s,
            Status := d.RecordStatusActive, URL := req.Target, Rule := rule }
          t.allowDump (some hreq)] ∧
      (HandleHTTP d t w).filter isMimt = []) ∧
    (req.Protocol ≠ d.ProtocolHttp →
      ¬ (req.Protocol = d.ProtocolHttps ∧ t.allowMitm = true ∧ t.allowDump = true) →
      (HandleHTTP d t w).filter isTransport = [.directTransport conn sc] ∧
      (HandleHTTP d t w).filter isMimt = [] ∧
      .recordChan
        { ID := sc.id, Protocol := req.Protocol, Created := w.now, Proxy := s,
          Status := d.RecordStatusActive, URL := req.Target, Rule := rule }
        ∈ HandleHTTP d t w) := by
  have heq := HandleHTTP_eq d t w conn sc req hreq rule s err hwrap hprep hfilter hconn hreply
  have hcond : (t.allowDump && decide (req.Protocol = d.ProtocolHttps) && t.allowMitm) = true ↔
      (req.Protocol = d.ProtocolHttps ∧ t.allowMitm = true ∧ t.allowDump = true) := by
    simp only [Bool.and_eq_true, decide_eq_true_eq]
    tauto
  refine ⟨?_, fun hs hm hd => ⟨fun lct sct hok => ?_, fun e herr => ?_⟩, fun hh => ?_,
    fun hh hn => ?_⟩
  · by_cases hc : (t.allowDump && decide (req.Protocol = d.ProtocolHttps) && t.allowMitm) = true
    · refine iff_of_true ?_ (hcond.mp hc)
      rw [heq, if_pos hc, if_pos (hcond.mp hc).1]
      cases hmi : w.mimt conn sc req with
      | error e => rfl
      | ok p => rfl
    · refine iff_of_false ?_ (fun h => hc (hcond.mpr h))
      rw [heq, if_neg hc]
      by_cases hs : req.Protocol = d.ProtocolHttps
      · have hh : ¬ req.Protocol = d.ProtocolHttp := fun h => hdistinct (h.symm.trans hs)
        rw [if_pos hs, if_neg hh]
        simp [isMimt]
      · rw [if_neg hs]
        by_cases hh : req.Protocol = d.ProtocolHttp
        · rw [if_pos hh]
          simp [isMimt]
        · rw [if_neg hh]
          simp [isMimt]
  · have hc := hcond.mpr ⟨hs, hm, hd⟩
    rw [heq, if_pos hc, hok, if_pos hs]
    exact ⟨rfl, rfl, rfl⟩
  · have hc := hcond.mpr ⟨hs, hm, hd⟩
    rw [heq, if_pos hc, herr, if_pos hs]
    exact ⟨rfl, rfl⟩
  · have hs : ¬ req.Protocol = d.ProtocolHttps := fun h => hdistinct (hh.symm.trans h)
    have hc : ¬ (t.allowDump && decide (req.Protocol = d.ProtocolHttps) && t.allowMitm) = true :=
      fun h => hs (hcond.mp h).1
    rw [heq, if_neg hc, if_pos hh, if_neg hs]
    exact ⟨rfl, rfl⟩
  · have hc : ¬ (t.allowDump && decide (req.Protocol = d.ProtocolHttps) && t.allowMitm) = true :=
      fun h => hn (hcond.mp h)
    rw [heq, if_neg hc, if_neg hh]
    by_cases hs : req.Protocol = d.ProtocolHttps
    · rw [if_pos hs]
      exact ⟨rfl, rfl, by simp⟩
    · rw [if_neg hs]
      exact ⟨rfl, rfl, by simp⟩

/-- Witness of C9: a CONNECT with MITM and capture off goes to the raw
`DirectChannel` tunnel. -/
theorem transport_mode_selection_witness :
    (shuttle.HandleHTTP sampleDecls ⟨false, false⟩ sampleTunnel).filter isTransport =
      [.directTransport ⟨1⟩ ⟨2⟩] ∧
    (shuttle.HandleHTTP sampleDecls ⟨false, false⟩ sampleTunnel).filter isMimt = [] :=
  ⟨((transport_mode_selection sampleDecls ⟨false, false⟩ sampleTunnel ⟨1⟩ ⟨2⟩ _ sampleConnect
      "FINAL" "JP1" none (by decide) rfl rfl rfl rfl (fun _ => rfl)).2.2.2
      (by decide) (by decide)).1,
   ((transport_mode_selection sampleDecls ⟨false, false⟩ sampleTunnel ⟨1⟩ ⟨2⟩ _ sampleConnect
      "FINAL" "JP1" none (by decide) rfl rfl rfl rfl (fun _ => rfl)).2.2.2
      (by decide) (by decide)).2.1⟩

/-- C8: with `FilterByReq` returning an error, `HandleHTTP` still calls
`s.Conn` on the returned server value and starts a transport. -/
theorem filter_error_is_not_final :
    (∀ req, (sampleNoRoute.filterByReq req).2.2 = some "no rule matched") ∧
    (shuttle.HandleHTTP sampleDecls ⟨false, false⟩ sampleNoRoute).filter isConn =
      [.conn ""
        { Ver := 5, Cmd := 1, Addr := "example.com", Atyp := 3, ConnID := 1, IP := none,
          Port := 80, Target := "http://example.com/", Protocol := "http" }] ∧
    ((shuttle.HandleHTTP sampleDecls ⟨false, false⟩ sampleNoRoute).filter isTransport).length = 1 :=
  ⟨fun _ => rfl, rfl, rfl⟩

end Shuttle
